import Mathlib

/-!
Verification of the antigravity agent-orchestration core against its
specification.  The TypeScript sources are shallowly embedded: every class
method becomes a Lean function from the receiver's state to a pair of the
post-state and the method's observable outcome (a thrown `Error` is the
`some`/`Except.error` case, and the post-state on a throwing path is the
receiver unchanged, exactly as in the source where the `throw` happens
before any field assignment).  Machine numbers that are only stored and
compared are embedded as `Nat`; the one arithmetic value, the registry's
running average duration, is embedded as `Rat`.  `Date.now()` /
`createTimestamp()` is embedded as a strictly increasing counter (a `clock`
field threaded through each state), and `uuidv4()` as a fresh-id counter
(`nextId`): each draw is a value never returned before, which is the
property the source relies on.  Event emission (`eventemitter3`) and
console logging are I/O with no effect on the embedded state and are left
out; where the source builds an event payload and nothing else, the
embedding keeps only the state change.
-/

namespace Antigravity

/-- The agent lifecycle phases (enum `AgentPhase`, core.types.ts). -/
inductive AgentPhase where
  | IDLE
  | PLANNING
  | ACTING
  | OBSERVING
  | REFLECTING
  | COMPLETE
  | FAILED
  | SUSPENDED
deriving DecidableEq, Repr

/-- The string value of an `AgentPhase` enum member, as interpolated into
error messages by the source. -/
def AgentPhase.str : AgentPhase → String
  | .IDLE => "IDLE"
  | .PLANNING => "PLANNING"
  | .ACTING => "ACTING"
  | .OBSERVING => "OBSERVING"
  | .REFLECTING => "REFLECTING"
  | .COMPLETE => "COMPLETE"
  | .FAILED => "FAILED"
  | .SUSPENDED => "SUSPENDED"

/-- Classification of action outcomes (enum `ActionOutcome`). -/
inductive ActionOutcome where
  | SUCCESS
  | PARTIAL
  | FAILURE
  | TIMEOUT
  | SKIPPED
deriving DecidableEq, Repr

/-- Priority levels (enum `Priority`; numeric in the source, only stored). -/
inductive Priority where
  | CRITICAL
  | HIGH
  | NORMAL
  | LOW
  | BACKGROUND
deriving DecidableEq, Repr

/-- Status of a planned action (enum `PlannedActionStatus`, mcp.types). -/
inductive PlannedActionStatus where
  | PENDING
  | IN_PROGRESS
  | COMPLETED
  | SKIPPED
  | FAILED
deriving DecidableEq, Repr

/-- Memory classification (enum `MemoryType`, mcp.types). -/
inductive MemoryType where
  | EPISODIC
  | SEMANTIC
  | PROCEDURAL
deriving DecidableEq, Repr

/-- Categories for context facts (enum `FactCategory`, mcp.types). -/
inductive FactCategory where
  | CODE_STRUCTURE
  | DEPENDENCY
  | USER_PREFERENCE
  | SYSTEM_STATE
  | ERROR_PATTERN
  | DISCOVERY
  | VALIDATION
deriving DecidableEq, Repr

/-- Types of execution constraints (enum `ConstraintType`, mcp.types). -/
inductive ConstraintType where
  | FILE_PROTECTION
  | STYLE_REQUIREMENT
  | TIME_BOUND
  | RESOURCE_LIMIT
  | COMPATIBILITY
deriving DecidableEq, Repr

/-- Source of an execution constraint (`'user' | 'system' | 'inferred'`). -/
inductive ConstraintSource where
  | user
  | system
  | inferred
deriving DecidableEq, Repr

/-- Tool grouping categories (enum `ToolCategory`, tools.types). -/
inductive ToolCategory where
  | FILESYSTEM
  | EXECUTION
  | ANALYSIS
  | VERSION_CONTROL
  | SEARCH
  | EXTERNAL
  | MEMORY
  | UTILITY
deriving DecidableEq, Repr

/-- Permission types required for tool execution (enum `ToolPermission`). -/
inductive ToolPermission where
  | FILE_READ
  | FILE_WRITE
  | FILE_DELETE
  | SHELL_EXECUTE
  | NETWORK_ACCESS
  | GIT_WRITE
  | ENV_ACCESS
deriving DecidableEq, Repr

/-- The string value of a `ToolPermission` enum member, as joined into the
`PERMISSION_DENIED` message by the source. -/
def ToolPermission.str : ToolPermission → String
  | .FILE_READ => "FILE_READ"
  | .FILE_WRITE => "FILE_WRITE"
  | .FILE_DELETE => "FILE_DELETE"
  | .SHELL_EXECUTE => "SHELL_EXECUTE"
  | .NETWORK_ACCESS => "NETWORK_ACCESS"
  | .GIT_WRITE => "GIT_WRITE"
  | .ENV_ACCESS => "ENV_ACCESS"

/-- A selected text range (interface `TextRange`, core.types). -/
structure TextRange where
  startLine : Nat
  startColumn : Nat
  endLine : Nat
  endColumn : Nat
deriving DecidableEq, Repr

/-- A parsed user intent (interface `UserIntent`, core.types).  `confidence`
is only stored by the core, never computed with; it is embedded as `Nat`. -/
structure UserIntent where
  rawInput : String
  action : String
  target : Option String
  constraints : List String
  confidence : Nat
  capturedAt : Nat
deriving DecidableEq, Repr

/-- Workspace metadata (interface `WorkspaceMetadata`, core.types). -/
structure WorkspaceMetadata where
  rootPath : String
  projectType : Option String
  frameworks : List String
  activeFile : Option String
  selection : Option TextRange
  gitBranch : Option String
  hasUncommittedChanges : Bool
  scannedAt : Nat
deriving DecidableEq, Repr

/-- A memory reference (interface `MemoryReference`, mcp.types). -/
structure MemoryReference where
  memoryId : Nat
  memoryType : MemoryType
  summary : String
  relevance : Nat
  createdAt : Nat
deriving DecidableEq, Repr

/-- A discovered fact (interface `ContextFact`, mcp.types). -/
structure ContextFact where
  id : Nat
  category : FactCategory
  statement : String
  confidence : Nat
  source : String
  discoveredAt : Nat
deriving DecidableEq, Repr

/-- An execution constraint (interface `ExecutionConstraint`, mcp.types). -/
structure ExecutionConstraint where
  id : Nat
  type : ConstraintType
  description : String
  mandatory : Bool
  source : ConstraintSource
deriving DecidableEq, Repr

/-- Structured error from tool execution (interface `ToolError`). -/
structure ToolError where
  code : String
  message : String
  recoverable : Bool
  suggestions : List String
  stack : Option String
deriving DecidableEq, Repr

/-- Result of a tool execution (interface `ToolResult`).  The generic
payload `data` is opaque to the whole core and embedded as a string. -/
structure ToolResult where
  id : Nat
  toolId : String
  success : Bool
  data : Option String
  error : Option ToolError
  durationMs : Nat
  completedAt : Nat
deriving DecidableEq, Repr

/-- A single action within an execution plan (interface `PlannedAction`).
The opaque `expectedParameters` key/value map is a list of string pairs. -/
structure PlannedAction where
  id : Nat
  index : Nat
  toolId : String
  description : String
  expectedParameters : List (String × String)
  dependsOn : List Nat
  priority : Priority
  status : PlannedActionStatus
deriving DecidableEq, Repr

/-- A planned sequence of actions (interface `ExecutionPlan`). -/
structure ExecutionPlan where
  id : Nat
  description : String
  actions : List PlannedAction
  currentIndex : Nat
  confidence : Nat
  createdAt : Nat
  revision : Nat
deriving DecidableEq, Repr

/-- The central context container (interface `MCPContext`, mcp.types). -/
structure MCPContext where
  id : Nat
  sessionId : Nat
  version : Nat
  intent : UserIntent
  workspace : WorkspaceMetadata
  memoryRefs : List MemoryReference
  recentResults : List ToolResult
  activePlan : Option ExecutionPlan
  facts : List ContextFact
  constraints : List ExecutionConstraint
  createdAt : Nat
  updatedAt : Nat
deriving DecidableEq, Repr

/-- A tool invocation record inside an `AgentStep` (interface
`ToolInvocation`, core.types). -/
structure ToolInvocation where
  toolId : String
  parameters : List (String × String)
  rationale : String
deriving DecidableEq, Repr

/-- One step of the execution trace (interface `AgentStep`, core.types). -/
structure AgentStep where
  id : Nat
  stepNumber : Nat
  phase : AgentPhase
  description : String
  reasoning : Option String
  toolInvocation : Option ToolInvocation
  result : Option ToolResult
  outcome : ActionOutcome
  durationMs : Nat
  startedAt : Nat
  completedAt : Nat
deriving DecidableEq, Repr

/-!
## Lifecycle Controller (src/agent/lifecycle.ts)
-/

/-- An entry in the phase history (interface `PhaseHistoryEntry`). -/
structure PhaseHistoryEntry where
  phase : AgentPhase
  stepNumber : Nat
  enteredAt : Nat
  exitedAt : Option Nat
  reason : String
deriving DecidableEq, Repr

/-- Error during lifecycle operations (interface `LifecycleError`). -/
structure LifecycleError where
  code : String
  message : String
  phase : AgentPhase
  attemptedTransition : Option AgentPhase
deriving DecidableEq, Repr

/-- Valid transitions from each phase (`VALID_TRANSITIONS`,
lifecycle.ts lines 91-100).  The source `ReadonlyMap` has an entry for
every phase, so the total function is the exact content. -/
def VALID_TRANSITIONS : AgentPhase → List AgentPhase
  | .IDLE => [.PLANNING, .SUSPENDED]
  | .PLANNING => [.ACTING, .REFLECTING, .FAILED, .SUSPENDED]
  | .ACTING => [.OBSERVING, .FAILED, .SUSPENDED]
  | .OBSERVING => [.REFLECTING, .FAILED, .SUSPENDED]
  | .REFLECTING => [.PLANNING, .COMPLETE, .FAILED, .SUSPENDED]
  | .SUSPENDED => [.PLANNING, .FAILED]
  | .COMPLETE => []
  | .FAILED => []

/-- Terminal phases (`TERMINAL_PHASES`, lifecycle.ts lines 105-108). -/
def TERMINAL_PHASES : List AgentPhase := [.COMPLETE, .FAILED]

/-- State of a `LifecycleController` instance (its private fields).  The
extra `clock` field embeds `Date.now()` as a strictly increasing counter
consumed by each `createTimestamp()` call. -/
structure LifecycleController where
  sessionId : Nat
  currentPhase : AgentPhase
  previousPhase : Option AgentPhase
  stepNumber : Nat
  phaseHistory : List PhaseHistoryEntry
  startedAt : Nat
  lastTransitionAt : Nat
  currentPhaseEntry : Option PhaseHistoryEntry
  clock : Nat
deriving DecidableEq, Repr

/-- Private `enterPhase` (lifecycle.ts lines 320-343): records the open
phase entry; the `phase:enter` event payload has no further state effect. -/
def LifecycleController.enterPhase (c : LifecycleController) (phase : AgentPhase)
    (reason : String) : LifecycleController :=
  let now := c.clock
  { c with
    currentPhaseEntry := some
      { phase := phase, stepNumber := c.stepNumber, enteredAt := now,
        exitedAt := none, reason := reason },
    clock := c.clock + 1 }

/-- Private `exitPhase` (lifecycle.ts lines 345-366): closes the open
entry, appending it to `phaseHistory` with its exit time. -/
def LifecycleController.exitPhase (c : LifecycleController) : LifecycleController :=
  match c.currentPhaseEntry with
  | none => c
  | some e =>
    let now := c.clock
    { c with
      phaseHistory := c.phaseHistory ++ [{ e with exitedAt := some now }],
      currentPhaseEntry := none,
      clock := c.clock + 1 }

/-- The constructor (lifecycle.ts lines 140-153): starts in IDLE with an
empty history, then records the initial phase via `enterPhase`. -/
def LifecycleController.mkSession (sessionId : Nat) (startClock : Nat) :
    LifecycleController :=
  let base : LifecycleController :=
    { sessionId := sessionId, currentPhase := .IDLE, previousPhase := none,
      stepNumber := 0, phaseHistory := [], startedAt := startClock,
      lastTransitionAt := startClock, currentPhaseEntry := none,
      clock := startClock + 1 }
  base.enterPhase .IDLE "Session initialized"

/-- `isTerminal` (lifecycle.ts lines 188-190). -/
def LifecycleController.isTerminal (c : LifecycleController) : Bool :=
  decide (c.currentPhase ∈ TERMINAL_PHASES)

/-- `canTransition` (lifecycle.ts lines 197-200): the target is in the
current phase's allowed list. -/
def LifecycleController.canTransition (c : LifecycleController)
    (targetPhase : AgentPhase) : Bool :=
  decide (targetPhase ∈ VALID_TRANSITIONS c.currentPhase)

/-- `transition` (lifecycle.ts lines 210-257).  Returns the post-state and
the thrown `LifecycleError` if any; both throwing paths occur before any
field assignment, so there the post-state is the receiver unchanged. -/
def LifecycleController.transition (c : LifecycleController)
    (targetPhase : AgentPhase) (reason : String) :
    LifecycleController × Option LifecycleError :=
  if c.isTerminal then
    (c, some
      { code := "TERMINAL_STATE",
        message := "Cannot transition from terminal state '" ++ c.currentPhase.str ++ "'",
        phase := c.currentPhase, attemptedTransition := some targetPhase })
  else if ¬ c.canTransition targetPhase then
    (c, some
      { code := "INVALID_TRANSITION",
        message := "Invalid transition: '" ++ c.currentPhase.str ++ "' → '"
          ++ targetPhase.str ++ "'",
        phase := c.currentPhase, attemptedTransition := some targetPhase })
  else
    let s1 := c.exitPhase
    let s2 : LifecycleController :=
      { s1 with
        previousPhase := some s1.currentPhase,
        currentPhase := targetPhase,
        lastTransitionAt := s1.clock,
        clock := s1.clock + 1,
        stepNumber :=
          if targetPhase ≠ AgentPhase.SUSPENDED then s1.stepNumber + 1
          else s1.stepNumber }
    (s2.enterPhase targetPhase reason, none)

/-- `fail` (lifecycle.ts lines 265-278): force-transition to FAILED; a
no-op when already terminal.  It never bumps the step counter. -/
def LifecycleController.fail (c : LifecycleController) (reason : String) :
    LifecycleController :=
  if c.isTerminal then c
  else
    let s1 := c.exitPhase
    let s2 : LifecycleController :=
      { s1 with
        previousPhase := some s1.currentPhase,
        currentPhase := .FAILED,
        lastTransitionAt := s1.clock,
        clock := s1.clock + 1 }
    s2.enterPhase .FAILED reason

/-- `complete` (lifecycle.ts lines 286-291): legal only where the table
allows COMPLETE.  The thrown plain `Error` carries only a message. -/
def LifecycleController.complete (c : LifecycleController) (reason : String) :
    LifecycleController × Option String :=
  if ¬ c.canTransition .COMPLETE then
    (c, some ("Cannot complete from phase '" ++ c.currentPhase.str ++ "'"))
  else
    let r := c.transition .COMPLETE reason
    (r.1, r.2.map (fun e => e.message))

/-- `suspend` (lifecycle.ts lines 299-304). -/
def LifecycleController.suspend (c : LifecycleController) (reason : String) :
    LifecycleController × Option String :=
  if ¬ c.canTransition .SUSPENDED then
    (c, some ("Cannot suspend from phase '" ++ c.currentPhase.str ++ "'"))
  else
    let r := c.transition .SUSPENDED reason
    (r.1, r.2.map (fun e => e.message))

/-- `resume` (lifecycle.ts lines 311-316): only from SUSPENDED, and always
re-enters PLANNING. -/
def LifecycleController.resume (c : LifecycleController) (reason : String) :
    LifecycleController × Option String :=
  if c.currentPhase ≠ AgentPhase.SUSPENDED then
    (c, some "Can only resume from SUSPENDED state")
  else
    let r := c.transition .PLANNING reason
    (r.1, r.2.map (fun e => e.message))

/-!
## Context Manager (src/mcp/context-manager.ts)
-/

/-- JavaScript `Map.get`: the value stored under the key, if any. -/
def jsMapGet {α : Type} (m : List (Nat × α)) (k : Nat) : Option α :=
  (m.find? (fun p => p.1 == k)).map (fun p => p.2)

/-- JavaScript `Map.set`: replace the value in place when the key exists
(insertion order preserved), otherwise append the new pair. -/
def jsMapSet {α : Type} (m : List (Nat × α)) (k : Nat) (v : α) : List (Nat × α) :=
  if m.any (fun p => p.1 == k) then
    m.map (fun p => if p.1 == k then (k, v) else p)
  else m ++ [(k, v)]

/-- Options for creating a new context (interface `CreateContextOptions`).
`none` on an optional field is the absent (`undefined`) argument. -/
structure CreateContextOptions where
  sessionId : Nat
  intent : UserIntent
  workspace : WorkspaceMetadata
  memoryRefs : Option (List MemoryReference) := none
  constraints : Option (List ExecutionConstraint) := none

/-- The partial workspace of `UpdateContextOptions.workspace`
(`Partial<WorkspaceMetadata>`).  The source merges with `??`, which treats
an explicit `null` like an absent field, so one `Option` layer per field is
the exact observable behavior. -/
structure WorkspaceUpdate where
  rootPath : Option String := none
  projectType : Option String := none
  frameworks : Option (List String) := none
  activeFile : Option String := none
  selection : Option TextRange := none
  gitBranch : Option String := none
  hasUncommittedChanges : Option Bool := none
  scannedAt : Option Nat := none

/-- Options for updating a context (interface `UpdateContextOptions`).
For `plan`, the source distinguishes absent (`undefined`: leave unchanged,
outer `none`), explicit `null` (clear, `some none`) and a replacement plan
(`some (some p)`). -/
structure UpdateContextOptions where
  memoryRefs : Option (List MemoryReference) := none
  addResults : Option (List ToolResult) := none
  addFacts : Option (List ContextFact) := none
  addConstraints : Option (List ExecutionConstraint) := none
  plan : Option (Option ExecutionPlan) := none
  workspace : Option WorkspaceUpdate := none

/-- State of a `ContextManager` instance: the retention bound and the
per-session history map, plus the embedded uuid supply and clock. -/
structure ContextManager where
  maxRecentResults : Nat
  history : List (Nat × List MCPContext)
  nextId : Nat
  clock : Nat

/-- The constructor default: `maxRecentResults ?? 10`, empty history. -/
def ContextManager.mkManager (maxRecentResults : Option Nat) : ContextManager :=
  { maxRecentResults := maxRecentResults.getD 10, history := [], nextId := 0,
    clock := 0 }

/-- JavaScript `Array.prototype.slice(-n)`.  For `n ≥ 1` this is the last
`n` elements (all of them when the list is shorter); `slice(-0)` is
`slice(0)`, the whole array, because `-0 === 0` in JavaScript. -/
def jsSliceNeg {α : Type} (l : List α) (n : Nat) : List α :=
  if n = 0 then l else l.drop (l.length - n)

/-- Private `mergeResults` (context-manager.ts lines 244-256): append, then
keep only the most recent `maxRecentResults` when over the bound. -/
def ContextManager.mergeResults (maxRecentResults : Nat)
    (existing additions : List ToolResult) : List ToolResult :=
  let combined := existing ++ additions
  if combined.length > maxRecentResults then jsSliceNeg combined maxRecentResults
  else combined

/-- One `Map.set` step of `mergeFacts`: the fact map is keyed by statement
text, a present key has its value replaced in place (JavaScript `Map`
preserves the key's original position), an absent key is appended. -/
def factInsert (m : List ContextFact) (f : ContextFact) : List ContextFact :=
  if m.any (fun g => g.statement == f.statement) then
    m.map (fun g => if g.statement == f.statement then f else g)
  else m ++ [f]

/-- Private `mergeFacts` (context-manager.ts lines 258-275): build a map
keyed by statement from the existing facts then the additions (later
entries override), and return its values in insertion order.  Folding the
`Map.set` step over `existing ++ additions` is exactly that construction. -/
def ContextManager.mergeFacts (existing additions : List ContextFact) :
    List ContextFact :=
  (existing ++ additions).foldl factInsert []

/-- One `Map.set` step of `mergeConstraints`, keyed by constraint id. -/
def constraintInsert (m : List ExecutionConstraint) (c : ExecutionConstraint) :
    List ExecutionConstraint :=
  if m.any (fun d => d.id == c.id) then
    m.map (fun d => if d.id == c.id then c else d)
  else m ++ [c]

/-- Private `mergeConstraints` (context-manager.ts lines 277-293):
deduplicate by id, last write wins. -/
def ContextManager.mergeConstraints (existing additions : List ExecutionConstraint) :
    List ExecutionConstraint :=
  (existing ++ additions).foldl constraintInsert []

/-- Private `mergeWorkspace` (context-manager.ts lines 295-309): per-field
`updates.f ?? existing.f`. -/
def ContextManager.mergeWorkspace (existing : WorkspaceMetadata)
    (updates : WorkspaceUpdate) : WorkspaceMetadata :=
  { rootPath := updates.rootPath.getD existing.rootPath,
    projectType := updates.projectType.or existing.projectType,
    frameworks := updates.frameworks.getD existing.frameworks,
    activeFile := updates.activeFile.or existing.activeFile,
    selection := updates.selection.or existing.selection,
    gitBranch := updates.gitBranch.or existing.gitBranch,
    hasUncommittedChanges :=
      updates.hasUncommittedChanges.getD existing.hasUncommittedChanges,
    scannedAt := updates.scannedAt.getD existing.scannedAt }

/-- Private `initializeHistory` (context-manager.ts lines 231-233). -/
def ContextManager.initHistory (h : List (Nat × List MCPContext))
    (sessionId : Nat) (context : MCPContext) : List (Nat × List MCPContext) :=
  jsMapSet h sessionId [context]

/-- Private `recordHistory` (context-manager.ts lines 235-242): push onto
the session's history array, creating it when absent. -/
def ContextManager.recordHistory (h : List (Nat × List MCPContext))
    (sessionId : Nat) (context : MCPContext) : List (Nat × List MCPContext) :=
  match jsMapGet h sessionId with
  | some sessionHistory => jsMapSet h sessionId (sessionHistory ++ [context])
  | none => jsMapSet h sessionId [context]

/-- `create` (context-manager.ts lines 84-107): a fresh version-1 context,
seeded into the session history. -/
def ContextManager.create (m : ContextManager) (options : CreateContextOptions) :
    ContextManager × MCPContext :=
  let now := m.clock
  let contextId := m.nextId
  let context : MCPContext :=
    { id := contextId, sessionId := options.sessionId, version := 1,
      intent := options.intent, workspace := options.workspace,
      memoryRefs := options.memoryRefs.getD [], recentResults := [],
      activePlan := none, facts := [],
      constraints := options.constraints.getD [], createdAt := now,
      updatedAt := now }
  ({ m with
      history := ContextManager.initHistory m.history options.sessionId context,
      nextId := m.nextId + 1, clock := m.clock + 1 },
    context)

/-- `update` (context-manager.ts lines 116-162): produce the next immutable
context version and record it in the session history. -/
def ContextManager.update (m : ContextManager) (current : MCPContext)
    (updates : UpdateContextOptions) : ContextManager × MCPContext :=
  let now := m.clock
  let newContextId := m.nextId
  let mergedResults :=
    ContextManager.mergeResults m.maxRecentResults current.recentResults
      (updates.addResults.getD [])
  let mergedFacts :=
    ContextManager.mergeFacts current.facts (updates.addFacts.getD [])
  let mergedConstraints :=
    ContextManager.mergeConstraints current.constraints
      (updates.addConstraints.getD [])
  let updatedWorkspace :=
    match updates.workspace with
    | some w => ContextManager.mergeWorkspace current.workspace w
    | none => current.workspace
  let updated : MCPContext :=
    { id := newContextId, sessionId := current.sessionId,
      version := current.version + 1, intent := current.intent,
      workspace := updatedWorkspace,
      memoryRefs := updates.memoryRefs.getD current.memoryRefs,
      recentResults := mergedResults,
      activePlan :=
        match updates.plan with
        | none => current.activePlan
        | some p => p,
      facts := mergedFacts, constraints := mergedConstraints,
      createdAt := current.createdAt, updatedAt := now }
  ({ m with
      history := ContextManager.recordHistory m.history current.sessionId updated,
      nextId := m.nextId + 1, clock := m.clock + 1 },
    updated)

/-- `getHistory` (context-manager.ts lines 170-172). -/
def ContextManager.getHistory (m : ContextManager) (sessionId : Nat) :
    List MCPContext :=
  (jsMapGet m.history sessionId).getD []

/-- `getVersion` (context-manager.ts lines 181-186). -/
def ContextManager.getVersion (m : ContextManager) (sessionId : Nat)
    (version : Nat) : Option MCPContext :=
  match jsMapGet m.history sessionId with
  | none => none
  | some sessionHistory => sessionHistory.find? (fun ctx => ctx.version == version)

/-- `queryFacts` (context-manager.ts lines 204-211); the optional category
filter compares the category's string value. -/
def ContextManager.queryFacts (context : MCPContext) (category : Option FactCategory) :
    List ContextFact :=
  match category with
  | none => context.facts
  | some cat => context.facts.filter (fun fact => fact.category == cat)

/-!
## Tool Registry (src/mcp/tool-registry.ts)

The registry's `tools` map has string keys; `strMapGet`/`strMapSet` are the
same JavaScript `Map` semantics as `jsMapGet`/`jsMapSet` for string keys.
A tool's `execute` is an async function raced against a timer; per
invocation its observable behavior is one of: the promise resolves with a
`ToolResult` before the timer fires, it rejects before the timer fires, or
the timer wins the race.  Real time is outside the embedding, so that
three-way behavior is the codomain of the embedded `execute`.
-/

/-- JavaScript `Map.get` for string keys. -/
def strMapGet {α : Type} (m : List (String × α)) (k : String) : Option α :=
  (m.find? (fun p => p.1 == k)).map (fun p => p.2)

/-- JavaScript `Map.set` for string keys. -/
def strMapSet {α : Type} (m : List (String × α)) (k : String) (v : α) :
    List (String × α) :=
  if m.any (fun p => p.1 == k) then
    m.map (fun p => if p.1 == k then (k, v) else p)
  else m ++ [(k, v)]

/-- A validation error (interface `ValidationError`, tools.types). -/
structure ValidationError where
  field : String
  message : String
  code : String
deriving DecidableEq, Repr

/-- A validation warning (interface `ValidationWarning`, tools.types). -/
structure ValidationWarning where
  field : String
  message : String
  suggestion : String
deriving DecidableEq, Repr

/-- Result of input validation (interface `ValidationResult`). -/
structure ValidationResult where
  valid : Bool
  errors : List ValidationError
  warnings : List ValidationWarning
deriving DecidableEq, Repr

/-- `validationSuccess()` (tools.types). -/
def validationSuccess : ValidationResult :=
  { valid := true, errors := [], warnings := [] }

/-- The opaque tool input (`unknown` in the source): a key/value map. -/
def ToolInput : Type := List (String × String)

/-- Context provided to tool execution (interface `ToolExecutionContext`);
the abort signal and logger are I/O handles with no embedded state. -/
structure ToolExecutionContext where
  mcpContext : MCPContext
  executionId : Nat
  workspaceRoot : String
  allowedPaths : List String
  dryRun : Bool

/-- The observable behavior of one `execute` call under the timeout race:
it resolves in time, rejects in time, or the timer fires first. -/
inductive ExecBehavior where
  | resolves (result : ToolResult)
  | throws (message : String)
  | timesOut

/-- A tool definition (interface `ToolDefinition`, tools.types).  The two
schema fields are opaque metadata, embedded as strings. -/
structure ToolDefinition where
  id : String
  name : String
  description : String
  category : ToolCategory
  inputSchema : String
  outputSchema : String
  permissions : List ToolPermission
  hasSideEffects : Bool
  idempotent : Bool
  estimatedDurationMs : Nat
  execute : ToolInput → ToolExecutionContext → ExecBehavior
  validate : Option (ToolInput → MCPContext → ValidationResult)
  version : String

/-- A registry entry (interface `ToolRegistryEntry`).  The running average
duration is a JavaScript number computed by division; it is embedded
exactly as a rational. -/
structure ToolRegistryEntry where
  definition : ToolDefinition
  registeredAt : Nat
  enabled : Bool
  invocationCount : Nat
  lastInvokedAt : Option Nat
  averageDurationMs : Rat

/-- Registry configuration (interface `ToolRegistryConfig`). -/
structure ToolRegistryConfig where
  defaultTimeoutMs : Nat
  strictValidation : Bool
  allowedCategories : List ToolCategory
  grantedPermissions : List ToolPermission
deriving DecidableEq, Repr

/-- `DEFAULT_REGISTRY_CONFIG` (tool-registry.ts lines 64-69). -/
def DEFAULT_REGISTRY_CONFIG : ToolRegistryConfig :=
  { defaultTimeoutMs := 30000, strictValidation := true,
    allowedCategories := [], grantedPermissions := [] }

/-- An invocation request (interface `ToolInvocationRequest`). -/
structure ToolInvocationRequest where
  toolId : String
  input : ToolInput
  context : MCPContext
  timeoutMs : Option Nat := none
  skipValidation : Option Bool := none

/-- State of a `ToolRegistry` instance, with the embedded uuid supply and
clock. -/
structure ToolRegistry where
  tools : List (String × ToolRegistryEntry)
  config : ToolRegistryConfig
  nextId : Nat
  clock : Nat

/-- Result of `checkPermissions` (tool-registry.ts lines 320-336). -/
structure PermissionCheck where
  valid : Bool
  missing : List ToolPermission
deriving DecidableEq, Repr

/-- Private `checkPermissions`: every required permission must be in the
granted set; the missing ones are collected in order. -/
def ToolRegistry.checkPermissions (config : ToolRegistryConfig)
    (required : List ToolPermission) : PermissionCheck :=
  let missing := required.filter
    (fun permission => !(config.grantedPermissions.contains permission))
  { valid := missing.isEmpty, missing := missing }

/-- Private `validateInput` (tool-registry.ts lines 338-351): the custom
validator when declared, otherwise success. -/
def ToolRegistry.validateInput (definition : ToolDefinition) (input : ToolInput)
    (context : MCPContext) : ValidationResult :=
  match definition.validate with
  | some v => v input context
  | none => validationSuccess

/-- Private `createExecutionContext` (tool-registry.ts lines 353-375). -/
def ToolRegistry.createExecutionContext (executionId : Nat)
    (mcpContext : MCPContext) : ToolExecutionContext :=
  { mcpContext := mcpContext, executionId := executionId,
    workspaceRoot := mcpContext.workspace.rootPath,
    allowedPaths := [mcpContext.workspace.rootPath], dryRun := false }

/-- Private `executeWithTimeout` (tool-registry.ts lines 377-398): a timer
win rejects with the timeout message; a rejection propagates. -/
def ToolRegistry.executeWithTimeout (definition : ToolDefinition)
    (input : ToolInput) (context : ToolExecutionContext) (timeoutMs : Nat) :
    Except String ToolResult :=
  match definition.execute input context with
  | .resolves result => .ok result
  | .throws message => .error message
  | .timesOut =>
    .error ("Tool execution timed out after " ++ toString timeoutMs ++ "ms")

/-- Private `createErrorResult` (tool-registry.ts lines 400-422). -/
def ToolRegistry.createErrorResult (executionId : Nat) (toolId : String)
    (code : String) (message : String) (recoverable : Bool) (durationMs : Nat)
    (completedAt : Nat) : ToolResult :=
  { id := executionId, toolId := toolId, success := false, data := none,
    error := some
      { code := code, message := message, recoverable := recoverable,
        suggestions := [], stack := none },
    durationMs := durationMs, completedAt := completedAt }

/-- Private `updateMetrics` (tool-registry.ts lines 424-435): replace the
entry with incremented count, fresh last-invoked time and the running
average `(oldAvg * oldCount + duration) / newCount`. -/
def ToolRegistry.updateMetrics (tools : List (String × ToolRegistryEntry))
    (entry : ToolRegistryEntry) (durationMs : Nat) (now : Nat) :
    List (String × ToolRegistryEntry) :=
  let newCount := entry.invocationCount + 1
  let newAverage : Rat :=
    (entry.averageDurationMs * (entry.invocationCount : Rat) + (durationMs : Rat))
      / (newCount : Rat)
  strMapSet tools entry.definition.id
    { entry with
      invocationCount := newCount
      lastInvokedAt := some now
      averageDurationMs := newAverage }

/-- `register` (tool-registry.ts lines 108-135): duplicate ids and (when an
allow-list is configured) disallowed categories are rejected by a thrown
`Error`; otherwise a fresh enabled entry with zeroed metrics is stored. -/
def ToolRegistry.register (reg : ToolRegistry) (definition : ToolDefinition) :
    ToolRegistry × Option String :=
  if (strMapGet reg.tools definition.id).isSome then
    (reg, some ("Tool with ID '" ++ definition.id ++ "' is already registered"))
  else if reg.config.allowedCategories.length > 0 ∧
      ¬ reg.config.allowedCategories.contains definition.category then
    (reg, some "Tool category is not allowed")
  else
    let entry : ToolRegistryEntry :=
      { definition := definition, registeredAt := reg.clock, enabled := true,
        invocationCount := 0, lastInvokedAt := none, averageDurationMs := 0 }
    ({ reg with
        tools := strMapSet reg.tools definition.id entry
        clock := reg.clock + 1 }, none)

/-- `setEnabled` (tool-registry.ts lines 195-201): copy-on-write entry
replacement. -/
def ToolRegistry.setEnabled (reg : ToolRegistry) (toolId : String)
    (enabled : Bool) : ToolRegistry :=
  match strMapGet reg.tools toolId with
  | none => reg
  | some entry =>
    { reg with tools := strMapSet reg.tools toolId { entry with enabled := enabled } }

/-- Outcome of one `invoke` call: post-state, returned result, and whether
the tool's `execute` function was applied on this invocation. -/
structure InvokeOutcome where
  registry : ToolRegistry
  result : ToolResult
  executeCalled : Bool

/-- `invoke` (tool-registry.ts lines 209-309), the dispatch pipeline in
source order: existence, enabled, permissions, validation (unless
`skipValidation === true`), then execution under the timeout, updating
metrics only after a successful execution.  `elapsedMs` is the measured
`Date.now() - startTime` of whichever path is taken. -/
def ToolRegistry.invoke (reg : ToolRegistry) (request : ToolInvocationRequest)
    (elapsedMs : Nat) : InvokeOutcome :=
  let executionId := reg.nextId
  let reg1 : ToolRegistry := { reg with nextId := reg.nextId + 1 }
  let now := reg1.clock
  let reg2 : ToolRegistry := { reg1 with clock := reg1.clock + 1 }
  match strMapGet reg.tools request.toolId with
  | none =>
    { registry := reg2,
      result := ToolRegistry.createErrorResult executionId request.toolId
        "TOOL_NOT_FOUND" ("Tool '" ++ request.toolId ++ "' is not registered")
        false elapsedMs now,
      executeCalled := false }
  | some entry =>
    if ¬ entry.enabled then
      { registry := reg2,
        result := ToolRegistry.createErrorResult executionId request.toolId
          "TOOL_DISABLED" ("Tool '" ++ request.toolId ++ "' is currently disabled")
          true elapsedMs now,
        executeCalled := false }
    else
      let permissionCheck :=
        ToolRegistry.checkPermissions reg.config entry.definition.permissions
      if ¬ permissionCheck.valid then
        { registry := reg2,
          result := ToolRegistry.createErrorResult executionId request.toolId
            "PERMISSION_DENIED"
            ("Missing permissions: " ++
              String.intercalate ", " (permissionCheck.missing.map ToolPermission.str))
            false elapsedMs now,
          executeCalled := false }
      else
        let validation :=
          if request.skipValidation ≠ some true then
            ToolRegistry.validateInput entry.definition request.input request.context
          else validationSuccess
        if request.skipValidation ≠ some true ∧ ¬ validation.valid then
          { registry := reg2,
            result := ToolRegistry.createErrorResult executionId request.toolId
              "VALIDATION_FAILED"
              ("Input validation failed: " ++
                String.intercalate ", " (validation.errors.map (fun e => e.message)))
              true elapsedMs now,
            executeCalled := false }
        else
          let execContext :=
            ToolRegistry.createExecutionContext executionId request.context
          let timeoutMs := request.timeoutMs.getD reg.config.defaultTimeoutMs
          match ToolRegistry.executeWithTimeout entry.definition request.input
              execContext timeoutMs with
          | .ok result =>
            { registry :=
                { reg2 with
                  tools := ToolRegistry.updateMetrics reg2.tools entry elapsedMs now },
              result := result, executeCalled := true }
          | .error message =>
            { registry := reg2,
              result := ToolRegistry.createErrorResult executionId request.toolId
                "EXECUTION_ERROR" message true elapsedMs now,
              executeCalled := true }

/-- `getMetrics` (tool-registry.ts lines 314-316). -/
def ToolRegistry.getMetrics (reg : ToolRegistry) (toolId : String) :
    Option ToolRegistryEntry :=
  strMapGet reg.tools toolId

/-!
## Decision Loop (src/agent/decision-loop.ts)

The loop's `Planner`/`Reflector` strategy functions return promises; per
call the embedding uses their resolved values (the catch-and-fail handling
of a strategy rejection wraps the whole `run` body and is embedded as the
`thrown` loop exit).  The `while` loop is driven by fuel; `run` returns
`none` when the fuel runs out, so every theorem below evaluates an actual
terminating execution.
-/

/-- Result of reflection analysis (interface `ReflectionResult`).  The
`adjustments` payload is read nowhere in the loop and is embedded as its
description strings. -/
structure ReflectionResult where
  shouldContinue : Bool
  isSuccess : Bool
  reason : String
  adjustments : List String
deriving DecidableEq, Repr

/-- A planner strategy (`Planner`, decision-loop.ts). -/
def Planner : Type := MCPContext → ExecutionPlan

/-- A reflector strategy (`Reflector`, decision-loop.ts). -/
def Reflector : Type := MCPContext → List AgentStep → ReflectionResult

/-- Result of running the decision loop (interface `LoopResult`). -/
structure LoopResult where
  sessionId : Nat
  success : Bool
  steps : List AgentStep
  finalContext : MCPContext
  duration : Nat
  reason : String

/-- The mutable state of a running `DecisionLoop` (its private fields plus
the embedded id supply and clock shared by step/result construction). -/
structure LoopState where
  lifecycle : LifecycleController
  cm : ContextManager
  registry : ToolRegistry
  context : MCPContext
  steps : List AgentStep
  isRunning : Bool
  idSupply : Nat
  clock : Nat

/-- Private `createStep` (decision-loop.ts lines 529-554): a fresh step
record; consumes one uuid and one timestamp. -/
def DecisionLoop.createStep (st : LoopState) (stepNumber : Nat)
    (phase : AgentPhase) (description : String) (reasoning : Option String)
    (toolInvocation : Option ToolInvocation) (result : Option ToolResult)
    (outcome : ActionOutcome) (startedAt : Nat) : AgentStep × LoopState :=
  let completedAt := st.clock
  let step : AgentStep :=
    { id := st.idSupply, stepNumber := stepNumber, phase := phase,
      description := description, reasoning := reasoning,
      toolInvocation := toolInvocation, result := result, outcome := outcome,
      durationMs := completedAt - startedAt, startedAt := startedAt,
      completedAt := completedAt }
  (step, { st with idSupply := st.idSupply + 1, clock := st.clock + 1 })

/-- Private `executePlanningPhase` (decision-loop.ts lines 320-351).  The
`some` error is a thrown lifecycle exception; state changes made before
the throw are kept, as in the source. -/
def DecisionLoop.executePlanningPhase (planner : Planner) (st : LoopState) :
    LoopState × Option String :=
  let stepNumber := st.lifecycle.stepNumber
  let stepStart := st.clock
  let st := { st with clock := st.clock + 1 }
  let plan := planner st.context
  let updated := st.cm.update st.context { plan := some (some plan) }
  let st := { st with cm := updated.1, context := updated.2 }
  let made := DecisionLoop.createStep st stepNumber .PLANNING
    ("Created plan with " ++ toString plan.actions.length ++ " actions")
    (some plan.description) none none .SUCCESS stepStart
  let st := { made.2 with steps := made.2.steps ++ [made.1] }
  match st.lifecycle.transition .ACTING "Plan created, beginning execution" with
  | (lc, none) => ({ st with lifecycle := lc }, none)
  | (lc, some e) => ({ st with lifecycle := lc }, some e.message)

/-- Private `executeActingPhase` (decision-loop.ts lines 353-453): run the
first PENDING action of the active plan through the registry, merge the
result, mark the action, and move to OBSERVING when nothing is pending any
more or the result failed. -/
def DecisionLoop.executeActingPhase (toolTimeoutMs : Nat) (st : LoopState) :
    LoopState × Option String :=
  match st.context.activePlan with
  | none => ({ st with lifecycle := st.lifecycle.fail "No active plan" }, none)
  | some plan =>
    match plan.actions.find? (fun a => a.status == PlannedActionStatus.PENDING) with
    | none =>
      match st.lifecycle.transition .OBSERVING "All planned actions executed" with
      | (lc, none) => ({ st with lifecycle := lc }, none)
      | (lc, some e) => ({ st with lifecycle := lc }, some e.message)
    | some nextAction =>
      let stepStart := st.clock
      let st := { st with clock := st.clock + 1 }
      let stepNumber := st.lifecycle.stepNumber
      let invocation : ToolInvocation :=
        { toolId := nextAction.toolId,
          parameters := nextAction.expectedParameters,
          rationale := nextAction.description }
      let inv := st.registry.invoke
        { toolId := nextAction.toolId, input := nextAction.expectedParameters,
          context := st.context, timeoutMs := some toolTimeoutMs,
          skipValidation := none }
        (st.clock - stepStart)
      let st := { st with registry := inv.registry }
      let result := inv.result
      let outcome :=
        if result.success then ActionOutcome.SUCCESS else ActionOutcome.FAILURE
      let updatedA := st.cm.update st.context { addResults := some [result] }
      let st := { st with cm := updatedA.1, context := updatedA.2 }
      let updatedActions := plan.actions.map (fun a =>
        if a.id == nextAction.id then
          { a with
            status :=
              if result.success then PlannedActionStatus.COMPLETED
              else PlannedActionStatus.FAILED }
        else a)
      let updatedPlan : ExecutionPlan :=
        { plan with actions := updatedActions, currentIndex := plan.currentIndex + 1 }
      let updatedB := st.cm.update st.context { plan := some (some updatedPlan) }
      let st := { st with cm := updatedB.1, context := updatedB.2 }
      let made := DecisionLoop.createStep st stepNumber .ACTING
        ("Executed " ++ nextAction.toolId) (some nextAction.description)
        (some invocation) (some result) outcome stepStart
      let st := { made.2 with steps := made.2.steps ++ [made.1] }
      let remainingActions := updatedActions.filter
        (fun a => a.status == PlannedActionStatus.PENDING)
      if remainingActions.length = 0 ∨ ¬ result.success then
        match st.lifecycle.transition .OBSERVING "Proceeding to observation" with
        | (lc, none) => ({ st with lifecycle := lc }, none)
        | (lc, some e) => ({ st with lifecycle := lc }, some e.message)
      else (st, none)

/-- Private `executeObservingPhase` (decision-loop.ts lines 455-481). -/
def DecisionLoop.executeObservingPhase (st : LoopState) :
    LoopState × Option String :=
  let stepNumber := st.lifecycle.stepNumber
  let stepStart := st.clock
  let st := { st with clock := st.clock + 1 }
  let recentResults := st.context.recentResults
  let successCount := (recentResults.filter (fun r => r.success)).length
  let totalCount := recentResults.length
  let made := DecisionLoop.createStep st stepNumber .OBSERVING
    ("Observed " ++ toString successCount ++ "/" ++ toString totalCount
      ++ " successful results")
    none none none .SUCCESS stepStart
  let st := { made.2 with steps := made.2.steps ++ [made.1] }
  match st.lifecycle.transition .REFLECTING "Results observed, reflecting" with
  | (lc, none) => ({ st with lifecycle := lc }, none)
  | (lc, some e) => ({ st with lifecycle := lc }, some e.message)

/-- Private `executeReflectingPhase` (decision-loop.ts lines 483-520). -/
def DecisionLoop.executeReflectingPhase (reflector : Reflector) (st : LoopState) :
    LoopState × Option String :=
  let stepNumber := st.lifecycle.stepNumber
  let stepStart := st.clock
  let st := { st with clock := st.clock + 1 }
  let reflection := reflector st.context st.steps
  let made := DecisionLoop.createStep st stepNumber .REFLECTING reflection.reason
    (some (if reflection.shouldContinue then "Continuing execution" else "Terminating"))
    none none .SUCCESS stepStart
  let st := { made.2 with steps := made.2.steps ++ [made.1] }
  if ¬ reflection.shouldContinue then
    if reflection.isSuccess then
      match st.lifecycle.complete reflection.reason with
      | (lc, none) => ({ st with lifecycle := lc }, none)
      | (lc, some msg) => ({ st with lifecycle := lc }, some msg)
    else
      ({ st with lifecycle := st.lifecycle.fail reflection.reason }, none)
  else
    match st.lifecycle.transition .PLANNING "Continuing with next iteration" with
    | (lc, none) => ({ st with lifecycle := lc }, none)
    | (lc, some e) => ({ st with lifecycle := lc }, some e.message)

/-- How the `while` loop of `run` was left. -/
inductive LoopExit where
  | finished
  | suspendedReturn
  | thrown (message : String)
deriving DecidableEq, Repr

/-- The `while` loop of `run` (decision-loop.ts lines 223-258), driven by
fuel.  Each iteration checks the step limit, then dispatches on the
current phase; SUSPENDED returns from `run` immediately; a thrown
lifecycle error exits the loop to the surrounding catch. -/
def DecisionLoop.runLoop (planner : Planner) (reflector : Reflector)
    (maxSteps toolTimeoutMs : Nat) : Nat → LoopState → Option (LoopState × LoopExit)
  | 0, _ => none
  | fuel + 1, st =>
    if st.isRunning ∧ ¬ st.lifecycle.isTerminal then
      if st.lifecycle.stepNumber ≥ maxSteps then
        some
          ({ st with
              lifecycle := st.lifecycle.fail
                ("Exceeded maximum steps (" ++ toString maxSteps ++ ")") },
            .finished)
      else
        match st.lifecycle.currentPhase with
        | .PLANNING =>
          match DecisionLoop.executePlanningPhase planner st with
          | (st2, none) =>
            DecisionLoop.runLoop planner reflector maxSteps toolTimeoutMs fuel st2
          | (st2, some msg) => some (st2, .thrown msg)
        | .ACTING =>
          match DecisionLoop.executeActingPhase toolTimeoutMs st with
          | (st2, none) =>
            DecisionLoop.runLoop planner reflector maxSteps toolTimeoutMs fuel st2
          | (st2, some msg) => some (st2, .thrown msg)
        | .OBSERVING =>
          match DecisionLoop.executeObservingPhase st with
          | (st2, none) =>
            DecisionLoop.runLoop planner reflector maxSteps toolTimeoutMs fuel st2
          | (st2, some msg) => some (st2, .thrown msg)
        | .REFLECTING =>
          match DecisionLoop.executeReflectingPhase reflector st with
          | (st2, none) =>
            DecisionLoop.runLoop planner reflector maxSteps toolTimeoutMs fuel st2
          | (st2, some msg) => some (st2, .thrown msg)
        | .SUSPENDED => some (st, .suspendedReturn)
        | _ =>
          DecisionLoop.runLoop planner reflector maxSteps toolTimeoutMs fuel st
    else some (st, .finished)

/-- Private `createResult` (decision-loop.ts lines 556-570). -/
def DecisionLoop.createResult (st : LoopState) (sessionId : Nat)
    (success : Bool) (reason : String) (startTime : Nat) : LoopResult :=
  { sessionId := sessionId, success := success, steps := st.steps,
    finalContext := st.context, duration := st.clock - startTime,
    reason := reason }

/-- `run` (decision-loop.ts lines 197-280): create the session lifecycle
and context, enter PLANNING, drive the loop, and assemble the result.  The
returned pair also exposes the final loop state (the source's `this`) so
theorems can observe the lifecycle; `none` means the fuel ran out. -/
def DecisionLoop.run (planner : Planner) (reflector : Reflector)
    (maxSteps toolTimeoutMs : Nat) (registry : ToolRegistry)
    (intent : UserIntent) (workspace : WorkspaceMetadata)
    (sessionId idSupply clock fuel : Nat) : Option (LoopResult × LoopState) :=
  let startTime := clock
  let lifecycle := LifecycleController.mkSession sessionId clock
  let cm0 := ContextManager.mkManager none
  let created := cm0.create
    { sessionId := sessionId, intent := intent, workspace := workspace }
  let st0 : LoopState :=
    { lifecycle := lifecycle, cm := created.1, registry := registry,
      context := created.2, steps := [], isRunning := true,
      idSupply := idSupply, clock := clock }
  match st0.lifecycle.transition .PLANNING "Beginning task execution" with
  | (lc, some e) =>
    -- the catch block: fail the lifecycle and report the thrown message
    let stF : LoopState :=
      { st0 with lifecycle := lc.fail e.message, isRunning := false }
    some (DecisionLoop.createResult stF sessionId false e.message startTime, stF)
  | (lc, none) =>
    match DecisionLoop.runLoop planner reflector maxSteps toolTimeoutMs fuel
        { st0 with lifecycle := lc } with
    | none => none
    | some (st, .suspendedReturn) =>
      let stF := { st with isRunning := false }
      some (DecisionLoop.createResult stF sessionId false "Suspended" startTime, stF)
    | some (st, .thrown msg) =>
      let stF : LoopState :=
        { st with lifecycle := st.lifecycle.fail msg, isRunning := false }
      some (DecisionLoop.createResult stF sessionId false msg startTime, stF)
    | some (st, .finished) =>
      let success := st.lifecycle.currentPhase == AgentPhase.COMPLETE
      let reason :=
        if success then "Task completed successfully" else "Task failed"
      let stF := { st with isRunning := false }
      some (DecisionLoop.createResult stF sessionId success reason startTime, stF)

/-!
## Snapshot `getState` and concrete fixtures
-/

/-- Snapshot of current lifecycle state (interface `LifecycleState`),
returned by `getState` (lifecycle.ts lines 158-169). -/
structure LifecycleState where
  sessionId : Nat
  currentPhase : AgentPhase
  previousPhase : Option AgentPhase
  stepNumber : Nat
  phaseHistory : List PhaseHistoryEntry
  startedAt : Nat
  lastTransitionAt : Nat
  isTerminal : Bool
deriving DecidableEq, Repr

/-- `getState` (lifecycle.ts lines 158-169). -/
def LifecycleController.getState (c : LifecycleController) : LifecycleState :=
  { sessionId := c.sessionId, currentPhase := c.currentPhase,
    previousPhase := c.previousPhase, stepNumber := c.stepNumber,
    phaseHistory := c.phaseHistory, startedAt := c.startedAt,
    lastTransitionAt := c.lastTransitionAt, isTerminal := c.isTerminal }

/-- The transition table of spec section 4.1, transcribed from the spec's
own words, to be compared with the source's `VALID_TRANSITIONS`. -/
def specTransitionTable : AgentPhase → List AgentPhase
  | .IDLE => [.PLANNING, .SUSPENDED]
  | .PLANNING => [.ACTING, .REFLECTING, .FAILED, .SUSPENDED]
  | .ACTING => [.OBSERVING, .FAILED, .SUSPENDED]
  | .OBSERVING => [.REFLECTING, .FAILED, .SUSPENDED]
  | .REFLECTING => [.PLANNING, .COMPLETE, .FAILED, .SUSPENDED]
  | .SUSPENDED => [.PLANNING, .FAILED]
  | .COMPLETE => []
  | .FAILED => []

/-- The last `n` elements of a list (all of them when it is shorter): the
spec's description of the bounded FIFO retention. -/
def lastN {α : Type} (n : Nat) (l : List α) : List α :=
  l.drop (l.length - n)

/-- A manager configured with `maxRecentResults = 0`. -/
def zeroBoundManager : ContextManager := ContextManager.mkManager (some 0)

/-- A concrete user intent. -/
def intentFixture : UserIntent :=
  { rawInput := "create a file", action := "create", target := none,
    constraints := [], confidence := 5, capturedAt := 0 }

/-- A concrete workspace. -/
def workspaceFixture : WorkspaceMetadata :=
  { rootPath := "/w", projectType := none, frameworks := [], activeFile := none,
    selection := none, gitBranch := none, hasUncommittedChanges := false,
    scannedAt := 0 }

/-- A default-bound manager with one created context (session 7). -/
def cmFixture : ContextManager × MCPContext :=
  (ContextManager.mkManager none).create
    { sessionId := 7, intent := intentFixture, workspace := workspaceFixture }

/-- A concrete successful tool result. -/
def resultFixture : ToolResult :=
  { id := 5, toolId := "echo", success := true, data := none, error := none,
    durationMs := 3, completedAt := 9 }

/-- A fact, and a second fact with the same statement but fresher
confidence and source. -/
def factFixtureA : ContextFact :=
  { id := 1, category := .DISCOVERY, statement := "sky is blue",
    confidence := 3, source := "observation", discoveredAt := 0 }

/-- The replacement fact for `factFixtureA`'s statement. -/
def factFixtureB : ContextFact :=
  { id := 2, category := .DISCOVERY, statement := "sky is blue",
    confidence := 9, source := "second observation", discoveredAt := 5 }

/-- A controller driven into FAILED, used to witness C2. -/
def failedFixture : LifecycleController :=
  (((LifecycleController.mkSession 0 0).transition .PLANNING "start").1).fail "boom"

/-- A controller suspended once, used against C6: its phase is SUSPENDED. -/
def suspendedFixture : LifecycleController :=
  ((LifecycleController.mkSession 0 0).suspend "pause").1

/-- States of a `LifecycleController` reachable through its public API.
`complete`, `suspend` and `resume` either delegate to `transition` or
return the state unchanged, so closing under the constructor, `transition`
and `fail` covers every state the class can reach. -/
inductive LifecycleReachable : LifecycleController → Prop where
  | init (sessionId startClock : Nat) :
      LifecycleReachable (LifecycleController.mkSession sessionId startClock)
  | step (c : LifecycleController) (t : AgentPhase) (r : String)
      (h : LifecycleReachable c) : LifecycleReachable (c.transition t r).1
  | failStep (c : LifecycleController) (r : String)
      (h : LifecycleReachable c) : LifecycleReachable (c.fail r)

/-- The empty registry under the default configuration. -/
def emptyRegistry : ToolRegistry :=
  { tools := [], config := DEFAULT_REGISTRY_CONFIG, nextId := 0, clock := 0 }

/-- A registry with no granted permissions holding a single tool that
requires FILE_WRITE. -/
def gatedToolDefinition : ToolDefinition :=
  { id := "fs.write", name := "Write File", description := "writes a file",
    category := .FILESYSTEM, inputSchema := "object", outputSchema := "object",
    permissions := [.FILE_WRITE], hasSideEffects := true, idempotent := false,
    estimatedDurationMs := 10,
    execute := fun _ _ => ExecBehavior.resolves
      { id := 77, toolId := "fs.write", success := true, data := some "ok",
        error := none, durationMs := 4, completedAt := 0 },
    validate := none, version := "1.0.0" }

/-- `emptyRegistry` with the permission-gated tool registered. -/
def gatedRegistry : ToolRegistry :=
  (emptyRegistry.register gatedToolDefinition).1

/-- The registry entry `gatedRegistry` stores for the gated tool. -/
def gatedEntry : ToolRegistryEntry :=
  { definition := gatedToolDefinition, registeredAt := 0, enabled := true,
    invocationCount := 0, lastInvokedAt := none, averageDurationMs := 0 }

/-- A request against the gated tool. -/
def gatedRequest : ToolInvocationRequest :=
  { toolId := "fs.write", input := ([] : List (String × String)),
    context := cmFixture.2 }

/-- The result the echo tool resolves with. -/
def echoSuccessResult : ToolResult :=
  { id := 88, toolId := "test.echo", success := true, data := some "echo",
    error := none, durationMs := 2, completedAt := 0 }

/-- A permissionless echo tool whose execute resolves immediately. -/
def echoToolDefinition : ToolDefinition :=
  { id := "test.echo", name := "Echo Tool", description := "echoes the input",
    category := .UTILITY, inputSchema := "object", outputSchema := "object",
    permissions := [], hasSideEffects := false, idempotent := true,
    estimatedDurationMs := 1,
    execute := fun _ _ => ExecBehavior.resolves echoSuccessResult,
    validate := none, version := "1.0.0" }

/-- `emptyRegistry` with the echo tool registered (enabled by default). -/
def echoRegistry : ToolRegistry :=
  (emptyRegistry.register echoToolDefinition).1

/-- The entry `echoRegistry` stores for the echo tool. -/
def echoEntry : ToolRegistryEntry :=
  { definition := echoToolDefinition, registeredAt := 0, enabled := true,
    invocationCount := 0, lastInvokedAt := none, averageDurationMs := 0 }

/-- `echoRegistry` with the echo tool disabled. -/
def echoDisabledRegistry : ToolRegistry :=
  echoRegistry.setEnabled "test.echo" false

/-- A request against the echo tool. -/
def echoRequest : ToolInvocationRequest :=
  { toolId := "test.echo", input := ([] : List (String × String)),
    context := cmFixture.2 }

/-- A planner returning an empty plan (as `createSimplePlanner` does when
its action callback yields null). -/
def emptyPlanner : Planner := fun _ =>
  { id := 900, description := "No actions planned", actions := [],
    currentIndex := 0, confidence := 0, createdAt := 0, revision := 0 }

/-- A reflector that always requests continuation. -/
def alwaysContinueReflector : Reflector := fun _ _ =>
  { shouldContinue := true, isSuccess := false,
    reason := "Continuing to next iteration", adjustments := [] }

/-- The concrete run of the spec §8 scenario: `maxSteps = 3`, a reflector
that always continues, an empty tool registry and an empty-plan planner.
Fuel 20 is ample; the run terminates well before it. -/
def c7run : Option (LoopResult × LoopState) :=
  DecisionLoop.run emptyPlanner alwaysContinueReflector 3 30000 emptyRegistry
    intentFixture workspaceFixture 1 100 0 20

/-- Whether the second character list starts with the first. -/
def startsWithChars : List Char → List Char → Bool
  | [], _ => true
  | _ :: _, [] => false
  | p :: ps, t :: ts => p == t && startsWithChars ps ts

/-- Whether the character list has the first list as a contiguous part. -/
def hasSubChars (pat : List Char) : List Char → Bool
  | [] => startsWithChars pat []
  | t :: ts => startsWithChars pat (t :: ts) || hasSubChars pat ts

/-- Whether `pat` occurs as a substring of `s`. -/
def strContainsSubstring (s pat : String) : Bool :=
  hasSubChars pat.toList s.toList

/-- The source's table is exactly the spec's §4.1 table. -/
theorem validTransitions_eq_specTable (p : AgentPhase) :
    VALID_TRANSITIONS p = specTransitionTable p := by
  cases p <;> rfl

/-!
## Helper lemmas about the lifecycle controller
-/
theorem exitPhase_currentPhase (c : LifecycleController) :
    c.exitPhase.currentPhase = c.currentPhase := by
  cases h : c.currentPhaseEntry <;> simp [LifecycleController.exitPhase, h]

theorem exitPhase_stepNumber (c : LifecycleController) :
    c.exitPhase.stepNumber = c.stepNumber := by
  cases h : c.currentPhaseEntry <;> simp [LifecycleController.exitPhase, h]

theorem exitPhase_currentPhaseEntry (c : LifecycleController) :
    c.exitPhase.currentPhaseEntry = none := by
  cases h : c.currentPhaseEntry <;> simp [LifecycleController.exitPhase, h]

theorem exitPhase_history_closed (c : LifecycleController)
    (h : ∀ e ∈ c.phaseHistory, e.exitedAt ≠ none) :
    ∀ e ∈ c.exitPhase.phaseHistory, e.exitedAt ≠ none := by
  cases hc : c.currentPhaseEntry with
  | none => simpa [LifecycleController.exitPhase, hc] using h
  | some e0 =>
    intro e he
    simp [LifecycleController.exitPhase, hc] at he
    rcases he with he | he
    · exact h e he
    · subst he; simp

theorem enterPhase_phaseHistory (c : LifecycleController) (p : AgentPhase)
    (r : String) : (c.enterPhase p r).phaseHistory = c.phaseHistory := by
  simp [LifecycleController.enterPhase]

theorem enterPhase_currentPhase (c : LifecycleController) (p : AgentPhase)
    (r : String) : (c.enterPhase p r).currentPhase = c.currentPhase := by
  simp [LifecycleController.enterPhase]

theorem enterPhase_currentPhaseEntry (c : LifecycleController) (p : AgentPhase)
    (r : String) :
    (c.enterPhase p r).currentPhaseEntry = some
      { phase := p, stepNumber := c.stepNumber, enteredAt := c.clock,
        exitedAt := none, reason := r } := by
  simp [LifecycleController.enterPhase]

/-- `canTransition` from a terminal phase is false: the table rows of
COMPLETE and FAILED are empty. -/
theorem canTransition_of_terminal (c : LifecycleController) (t : AgentPhase)
    (h : c.isTerminal = true) : c.canTransition t = false := by
  revert h
  unfold LifecycleController.isTerminal LifecycleController.canTransition
  cases c.currentPhase <;> simp [TERMINAL_PHASES, VALID_TRANSITIONS]

/-- On a successful transition the controller lands in the target phase
and no error is produced. -/
theorem transition_ok (c : LifecycleController) (t : AgentPhase) (r : String)
    (h : c.canTransition t = true) :
    (c.transition t r).2 = none ∧ (c.transition t r).1.currentPhase = t := by
  have hterm : c.isTerminal = false := by
    by_contra hcon
    have : c.isTerminal = true := by
      cases hv : c.isTerminal
      · exact absurd hv hcon
      · rfl
    rw [canTransition_of_terminal c t this] at h
    exact Bool.false_ne_true h
  unfold LifecycleController.transition
  rw [hterm, h]
  simp [enterPhase_currentPhase]

/-- C1: for every current phase and target phase, `canTransition` returns
true exactly when the target is in the spec §4.1 table row of the current
phase; when it is, `transition` succeeds (no error, lands in the target);
when it is not and the phase is non-terminal, `transition` produces the
INVALID_TRANSITION error and leaves the whole state (in particular
`currentPhase`) unchanged. -/
theorem c1_transition_table_correct :
    ∀ (c : LifecycleController) (t : AgentPhase) (reason : String),
      (c.canTransition t = true ↔ t ∈ specTransitionTable c.currentPhase) ∧
      (c.canTransition t = true →
        (c.transition t reason).2 = none ∧
        (c.transition t reason).1.currentPhase = t) ∧
      (c.canTransition t = false → c.isTerminal = false →
        ∃ e, (c.transition t reason).2 = some e ∧
          e.code = "INVALID_TRANSITION" ∧ (c.transition t reason).1 = c) := by
  intro c t reason
  refine ⟨?_, fun h => transition_ok c t reason h, ?_⟩
  · simp [LifecycleController.canTransition, validTransitions_eq_specTable]
  · intro hcan hterm
    unfold LifecycleController.transition
    rw [hterm, hcan]
    simp

/-- Witness for C1 at concrete inputs: from the freshly constructed
controller (phase IDLE), PLANNING is legal and succeeds, ACTING is not in
the IDLE row and is rejected without a state change. -/
theorem c1_witness :
    (((LifecycleController.mkSession 0 0).transition .PLANNING "go").2 = none ∧
      ((LifecycleController.mkSession 0 0).transition .PLANNING "go").1.currentPhase
        = AgentPhase.PLANNING) ∧
    (∃ e, ((LifecycleController.mkSession 0 0).transition .ACTING "bad").2 = some e ∧
      e.code = "INVALID_TRANSITION" ∧
      ((LifecycleController.mkSession 0 0).transition .ACTING "bad").1
        = LifecycleController.mkSession 0 0) :=
  ⟨(c1_transition_table_correct (LifecycleController.mkSession 0 0) .PLANNING "go").2.1
      (by decide),
    (c1_transition_table_correct (LifecycleController.mkSession 0 0) .ACTING "bad").2.2
      (by decide) (by decide)⟩

/-- C2: a terminal phase (COMPLETE or FAILED) is absorbing: every
`transition` call throws TERMINAL_STATE leaving the state untouched, and
`fail` is a complete no-op (no field, in particular no history entry,
changes). -/
theorem c2_terminal_absorbing :
    ∀ (c : LifecycleController) (t : AgentPhase) (reason failReason : String),
      c.isTerminal = true →
      ((c.transition t reason).1 = c ∧
        ∃ e, (c.transition t reason).2 = some e ∧ e.code = "TERMINAL_STATE") ∧
      c.fail failReason = c := by
  intro c t reason failReason h
  constructor
  · unfold LifecycleController.transition
    rw [h]
    simp
  · unfold LifecycleController.fail
    rw [h]
    simp

/-- Witness for C2 at a concrete terminal state. -/
theorem c2_witness :
    failedFixture.isTerminal = true ∧
    (failedFixture.transition .PLANNING "again").1 = failedFixture ∧
    (∃ e, (failedFixture.transition .PLANNING "again").2 = some e ∧
      e.code = "TERMINAL_STATE") ∧
    failedFixture.fail "later" = failedFixture := by
  have h : failedFixture.isTerminal = true := by decide
  have hmain := c2_terminal_absorbing failedFixture .PLANNING "again" "later" h
  exact ⟨h, hmain.1.1, hmain.1.2, hmain.2⟩

/-- `canTransition` into SUSPENDED holds exactly for the five phases whose
table row lists SUSPENDED; the SUSPENDED row itself does not. -/
theorem canTransition_suspended_iff (c : LifecycleController) :
    c.canTransition .SUSPENDED = true ↔
      c.currentPhase ∈
        ([.IDLE, .PLANNING, .ACTING, .OBSERVING, .REFLECTING] : List AgentPhase) := by
  unfold LifecycleController.canTransition
  cases hp : c.currentPhase <;> simp [hp, VALID_TRANSITIONS]

/-- Counterexample to C6 as stated: from the SUSPENDED phase (which is
non-terminal), `suspend` does not succeed — the SUSPENDED table row is
only [PLANNING, FAILED], so `canTransition(SUSPENDED)` is false there and
`suspend` throws. -/
theorem c6_counterexample :
    suspendedFixture.currentPhase = AgentPhase.SUSPENDED ∧
    (suspendedFixture.suspend "again").2 =
      some "Cannot suspend from phase 'SUSPENDED'" := by
  constructor
  · decide
  · rfl

/-- C6 amended: `suspend` succeeds exactly from IDLE, PLANNING, ACTING,
OBSERVING and REFLECTING, landing in SUSPENDED; it fails from SUSPENDED
itself and from the terminal phases COMPLETE and FAILED. -/
theorem c6_suspend_amended :
    ∀ (c : LifecycleController) (reason : String),
      ((c.suspend reason).2 = none ↔
        c.currentPhase ∈
          ([.IDLE, .PLANNING, .ACTING, .OBSERVING, .REFLECTING] : List AgentPhase)) ∧
      ((c.suspend reason).2 = none →
        (c.suspend reason).1.currentPhase = AgentPhase.SUSPENDED) := by
  intro c reason
  by_cases h : c.canTransition .SUSPENDED = true
  · have hmem := (canTransition_suspended_iff c).1 h
    have hok := transition_ok c .SUSPENDED reason h
    refine ⟨⟨fun _ => hmem, fun _ => ?_⟩, fun _ => ?_⟩
    · simp [LifecycleController.suspend, h, hok.1]
    · simp [LifecycleController.suspend, h, hok.2]
  · have hb : c.canTransition .SUSPENDED = false := by
      cases hv : c.canTransition .SUSPENDED
      · rfl
      · exact absurd hv h
    have hnmem : c.currentPhase ∉
        ([.IDLE, .PLANNING, .ACTING, .OBSERVING, .REFLECTING] : List AgentPhase) :=
      fun hm => h ((canTransition_suspended_iff c).2 hm)
    refine ⟨⟨fun habs => ?_, fun hm => absurd hm hnmem⟩, fun habs => ?_⟩
    · simp [LifecycleController.suspend, hb] at habs
    · simp [LifecycleController.suspend, hb] at habs

/-- Witness for the amended C6 at a concrete input: suspending the fresh
IDLE controller succeeds and lands in SUSPENDED. -/
theorem c6_witness :
    ((LifecycleController.mkSession 0 0).suspend "pause").2 = none ∧
    ((LifecycleController.mkSession 0 0).suspend "pause").1.currentPhase
      = AgentPhase.SUSPENDED := by
  have h := c6_suspend_amended (LifecycleController.mkSession 0 0) "pause"
  have h1 : ((LifecycleController.mkSession 0 0).suspend "pause").2 = none :=
    h.1.mpr (by decide)
  exact ⟨h1, h.2 h1⟩

/-- The successful `transition` branch keeps the history closed and opens
an entry with no exit time. -/
theorem transition_success_inv (c : LifecycleController) (t : AgentPhase)
    (r : String) (hf : c.isTerminal = false) (hcan : c.canTransition t = true)
    (ih : ∀ e ∈ c.phaseHistory, e.exitedAt ≠ none) :
    (∀ e ∈ (c.transition t r).1.phaseHistory, e.exitedAt ≠ none) ∧
    (∀ e, (c.transition t r).1.currentPhaseEntry = some e → e.exitedAt = none) := by
  unfold LifecycleController.transition
  rw [hf, hcan]
  simp only [Bool.false_eq_true, if_false, not_true, ite_not, if_true]
  constructor
  · intro e he
    rw [enterPhase_phaseHistory] at he
    exact exitPhase_history_closed c ih e he
  · intro e he
    rw [enterPhase_currentPhaseEntry] at he
    injection he with he
    rw [← he]

/-- `fail` from a non-terminal state keeps the history closed and opens an
entry with no exit time. -/
theorem fail_inv (c : LifecycleController) (r : String)
    (hf : c.isTerminal = false)
    (ih : ∀ e ∈ c.phaseHistory, e.exitedAt ≠ none) :
    (∀ e ∈ (c.fail r).phaseHistory, e.exitedAt ≠ none) ∧
    (∀ e, (c.fail r).currentPhaseEntry = some e → e.exitedAt = none) := by
  unfold LifecycleController.fail
  rw [hf]
  simp only [Bool.false_eq_true, if_false]
  constructor
  · intro e he
    rw [enterPhase_phaseHistory] at he
    exact exitPhase_history_closed c ih e he
  · intro e he
    rw [enterPhase_currentPhaseEntry] at he
    injection he with he
    rw [← he]

/-- In every reachable controller state, every history entry carries an
exit time and the open entry (if any) carries none. -/
theorem reachable_inv (c : LifecycleController) (h : LifecycleReachable c) :
    (∀ e ∈ c.phaseHistory, e.exitedAt ≠ none) ∧
    (∀ e, c.currentPhaseEntry = some e → e.exitedAt = none) := by
  induction h with
  | init sid t0 =>
    constructor
    · intro e he
      simp [LifecycleController.mkSession, LifecycleController.enterPhase] at he
    · intro e he
      simp [LifecycleController.mkSession, LifecycleController.enterPhase] at he
      rw [← he]
  | step c t r hc ih =>
    by_cases hterm : c.isTerminal = true
    · have h1 : (c.transition t r).1 = c := by
        unfold LifecycleController.transition
        rw [hterm]
        simp
      rw [h1]
      exact ih
    · have hf : c.isTerminal = false := by
        revert hterm
        cases c.isTerminal <;> simp
      by_cases hcan : c.canTransition t = true
      · exact transition_success_inv c t r hf hcan ih.1
      · have hcf : c.canTransition t = false := by
          revert hcan
          cases c.canTransition t <;> simp
        have h1 : (c.transition t r).1 = c := by
          unfold LifecycleController.transition
          rw [hf, hcf]
          simp
        rw [h1]
        exact ih
  | failStep c r hc ih =>
    by_cases hterm : c.isTerminal = true
    · have h1 : c.fail r = c := by
        unfold LifecycleController.fail
        rw [hterm]
        simp
      rw [h1]
      exact ih
    · have hf : c.isTerminal = false := by
        revert hterm
        cases c.isTerminal <;> simp
      exact fail_inv c r hf ih.1

/-- C10: in every reachable controller state, every entry of
`getState().phaseHistory` has a non-null `exitedAt`; the open phase entry
is never among them; and immediately after construction the history is
empty while `currentPhase` is IDLE. -/
theorem c10_history_entries_closed :
    ∀ (c : LifecycleController), LifecycleReachable c →
      (∀ e ∈ c.getState.phaseHistory, e.exitedAt ≠ none) ∧
      (∀ e, c.currentPhaseEntry = some e → e ∉ c.getState.phaseHistory) ∧
      (∀ (sid t0 : Nat),
        (LifecycleController.mkSession sid t0).getState.phaseHistory = [] ∧
        (LifecycleController.mkSession sid t0).getState.currentPhase
          = AgentPhase.IDLE) := by
  intro c h
  have inv := reachable_inv c h
  refine ⟨inv.1, fun e he hmem => (inv.1 e hmem) (inv.2 e he), fun sid t0 => ⟨rfl, rfl⟩⟩

/-- Witness for C10 at a concrete reachable state (constructor followed by
one transition into PLANNING). -/
theorem c10_witness :
    (∀ e ∈ (((LifecycleController.mkSession 0 0).transition .PLANNING "go").1).getState.phaseHistory,
      e.exitedAt ≠ none) ∧
    ((((LifecycleController.mkSession 0 0).transition .PLANNING "go").1).getState.phaseHistory.length
      = 1) := by
  have hr : LifecycleReachable ((LifecycleController.mkSession 0 0).transition .PLANNING "go").1 :=
    LifecycleReachable.step _ _ _ (LifecycleReachable.init 0 0)
  exact ⟨(c10_history_entries_closed _ hr).1, by decide⟩

/-!
## Concrete fixtures used by witnesses and counterexamples
-/

/-!
## C3: updates are never destructive
-/

/-- C3: `ContextManager.update` returns a new context whose version is the
previous version plus one and whose id is fresh (the embedded uuid draw is
a value the manager has never produced, so it differs from the id of any
context the manager produced, which is below `nextId`).  That the argument
context is unchanged afterwards is inherent to the embedding: `update` is
a pure function and mutates nothing. -/
theorem c3_update_fresh_version :
    ∀ (m : ContextManager) (c : MCPContext) (u : UpdateContextOptions),
      ((m.update c u).2.version = c.version + 1) ∧
      (c.id < m.nextId → (m.update c u).2.id ≠ c.id) := by
  intro m c u
  refine ⟨rfl, fun h heq => ?_⟩
  have hid : (m.update c u).2.id = m.nextId := rfl
  rw [hid] at heq
  omega

/-- Witness for C3 at a concrete manager-produced context. -/
theorem c3_witness :
    ((cmFixture.1.update cmFixture.2 {}).2.version = cmFixture.2.version + 1) ∧
    ((cmFixture.1.update cmFixture.2 {}).2.id ≠ cmFixture.2.id) := by
  have h := c3_update_fresh_version cmFixture.1 cmFixture.2 {}
  exact ⟨h.1, h.2 (by decide)⟩

/-!
## C8: bounded FIFO of recent results
-/

/-- Counterexample to C8 as stated for every configured bound: with
`maxRecentResults = 0`, JavaScript `slice(-0)` is `slice(0)` (the whole
array), so adding one result to an empty list keeps it and the bound is
exceeded. -/
theorem c8_counterexample :
    zeroBoundManager.maxRecentResults = 0 ∧
    ¬ ((zeroBoundManager.update cmFixture.2
          { addResults := some [resultFixture] }).2.recentResults.length
        ≤ zeroBoundManager.maxRecentResults) := by
  constructor
  · rfl
  · decide

/-- C8 amended: for every positive bound (the default is 10), the updated
context's recent results never exceed the bound and are exactly the last
`maxRecentResults` elements of the previous results followed by the
additions — oldest evicted first. -/
theorem c8_bounded_fifo :
    ∀ (m : ContextManager) (c : MCPContext) (rs : List ToolResult),
      1 ≤ m.maxRecentResults →
      ((m.update c { addResults := some rs }).2.recentResults.length
          ≤ m.maxRecentResults ∧
        (m.update c { addResults := some rs }).2.recentResults
          = lastN m.maxRecentResults (c.recentResults ++ rs)) := by
  intro m c rs hm
  have hr : (m.update c { addResults := some rs }).2.recentResults
      = ContextManager.mergeResults m.maxRecentResults c.recentResults rs := rfl
  rw [hr]
  unfold ContextManager.mergeResults lastN jsSliceNeg
  by_cases hlen : (c.recentResults ++ rs).length > m.maxRecentResults
  · have hne : m.maxRecentResults ≠ 0 := by omega
    rw [if_pos hlen, if_neg hne]
    constructor
    · rw [List.length_drop]
      omega
    · rfl
  · rw [if_neg hlen]
    constructor
    · omega
    · have : (c.recentResults ++ rs).length - m.maxRecentResults = 0 := by omega
      rw [this, List.drop_zero]

/-- Witness for the amended C8 at the default bound 10 with 12 results. -/
theorem c8_witness :
    1 ≤ cmFixture.1.maxRecentResults ∧
    ((cmFixture.1.update cmFixture.2
        { addResults := some (List.replicate 12 resultFixture) }).2.recentResults.length
      ≤ cmFixture.1.maxRecentResults) ∧
    ((cmFixture.1.update cmFixture.2
        { addResults := some (List.replicate 12 resultFixture) }).2.recentResults
      = lastN cmFixture.1.maxRecentResults
          (cmFixture.2.recentResults ++ List.replicate 12 resultFixture)) := by
  have h := c8_bounded_fifo cmFixture.1 cmFixture.2
    (List.replicate 12 resultFixture) (by decide)
  exact ⟨by decide, h.1, h.2⟩

/-!
## C9: fact merging is keyed by statement, last write wins
-/

/-- A statement absent from a fact list filters to nothing. -/
theorem filter_stmt_eq_nil (l : List ContextFact) (s : String)
    (h : s ∉ l.map (fun g => g.statement)) :
    l.filter (fun g => g.statement == s) = [] := by
  induction l with
  | nil => rfl
  | cons g l ih =>
    simp only [List.map_cons, List.mem_cons, not_or] at h
    have hcond : (g.statement == s) = false := by
      simp only [beq_eq_false_iff_ne, ne_eq]
      exact fun hh => h.1 hh.symm
    simp only [List.filter_cons, hcond, Bool.false_eq_true, if_false]
    exact ih h.2

/-- Replacing by a key that does not occur changes nothing. -/
theorem map_repl_of_not_mem (l : List ContextFact) (f : ContextFact)
    (h : f.statement ∉ l.map (fun g => g.statement)) :
    l.map (fun g => if g.statement == f.statement then f else g) = l := by
  have hcg : ∀ g ∈ l, (if g.statement == f.statement then f else g) = id g := by
    intro g hg
    have hne : ¬ ((g.statement == f.statement) = true) := by
      simp only [beq_iff_eq]
      intro hh
      exact h (hh ▸ List.mem_map_of_mem (fun g => g.statement) hg)
    rw [if_neg hne]
    rfl
  rw [List.map_congr_left hcg, List.map_id]

/-- Filtering after an in-place replacement of the (unique, by the nodup
hypothesis) occurrence of the key. -/
theorem map_repl_filter (m : List ContextFact) (f : ContextFact) (s : String)
    (hnd : (m.map (fun g => g.statement)).Nodup)
    (hany : m.any (fun g => g.statement == f.statement) = true) :
    (m.map (fun g => if g.statement == f.statement then f else g)).filter
        (fun g => g.statement == s)
      = if f.statement = s then [f]
        else m.filter (fun g => g.statement == s) := by
  induction m with
  | nil => simp at hany
  | cons g m ih =>
    rw [List.map_cons, List.nodup_cons] at hnd
    by_cases hg : g.statement = f.statement
    · have hmap : m.map (fun x => if x.statement == f.statement then f else x) = m :=
        map_repl_of_not_mem m f (hg ▸ hnd.1)
      have hhead : (if g.statement == f.statement then f else g) = f := by
        rw [if_pos]
        simp only [beq_iff_eq]
        exact hg
      rw [List.map_cons, hhead, hmap]
      by_cases hs : f.statement = s
      · have hnm : s ∉ m.map (fun x => x.statement) := by
          rw [← hs, ← hg]
          exact hnd.1
        have hc : (f.statement == s) = true := by
          simp only [beq_iff_eq]
          exact hs
        rw [if_pos hs, List.filter_cons, if_pos hc, filter_stmt_eq_nil m s hnm]
      · have hc : (f.statement == s) = false := by
          simp only [beq_eq_false_iff_ne, ne_eq]
          exact hs
        have hcg : (g.statement == s) = false := by
          simp only [beq_eq_false_iff_ne, ne_eq]
          rw [hg]
          exact hs
        rw [if_neg hs, List.filter_cons, List.filter_cons, hc, hcg]
        simp
    · have hhead : (if g.statement == f.statement then f else g) = g := by
        rw [if_neg]
        simp only [beq_iff_eq]
        exact hg
      have hany' : m.any (fun x => x.statement == f.statement) = true := by
        rw [List.any_cons] at hany
        have hgf : (g.statement == f.statement) = false := by
          simp only [beq_eq_false_iff_ne, ne_eq]
          exact hg
        rw [hgf] at hany
        simpa using hany
      rw [List.map_cons, hhead]
      by_cases hs : f.statement = s
      · have hcg : (g.statement == s) = false := by
          simp only [beq_eq_false_iff_ne, ne_eq]
          rw [hs] at hg
          exact hg
        rw [if_pos hs, List.filter_cons, hcg]
        simp only [Bool.false_eq_true, if_false]
        have := ih hnd.2 hany'
        rw [if_pos hs] at this
        exact this
      · rw [if_neg hs, List.filter_cons, List.filter_cons]
        have := ih hnd.2 hany'
        rw [if_neg hs] at this
        rw [this]

/-- The filter of a single `Map.set` step: the inserted fact is the unique
survivor for its own statement; other statements are untouched. -/
theorem factInsert_filter (m : List ContextFact) (f : ContextFact) (s : String)
    (hnd : (m.map (fun g => g.statement)).Nodup) :
    (factInsert m f).filter (fun g => g.statement == s)
      = if f.statement = s then [f]
        else m.filter (fun g => g.statement == s) := by
  unfold factInsert
  by_cases hany : m.any (fun g => g.statement == f.statement) = true
  · rw [if_pos hany]
    exact map_repl_filter m f s hnd hany
  · have hany' : m.any (fun g => g.statement == f.statement) = false := by
      revert hany
      cases m.any (fun g => g.statement == f.statement) <;> simp
    rw [if_neg (by simp [hany'])]
    rw [List.filter_append]
    by_cases hs : f.statement = s
    · have hnm : s ∉ m.map (fun g => g.statement) := by
        intro hmem
        rcases List.mem_map.mp hmem with ⟨g, hgmem, hgs⟩
        have := List.any_eq_false.mp hany' g hgmem
        simp only [beq_iff_eq] at this
        exact this (by rw [hgs, hs])
      rw [if_pos hs, filter_stmt_eq_nil m s hnm]
      have hc : (f.statement == s) = true := by
        simp only [beq_iff_eq]
        exact hs
      simp [hc]
    · have hc : (f.statement == s) = false := by
        simp only [beq_eq_false_iff_ne, ne_eq]
        exact hs
      rw [if_neg hs]
      simp [hc]

/-- One `Map.set` step keeps the statement keys nodup. -/
theorem factInsert_keys_nodup (m : List ContextFact) (f : ContextFact)
    (hnd : (m.map (fun g => g.statement)).Nodup) :
    ((factInsert m f).map (fun g => g.statement)).Nodup := by
  unfold factInsert
  by_cases hany : m.any (fun g => g.statement == f.statement) = true
  · rw [if_pos hany]
    have hkeys : (m.map (fun g => if g.statement == f.statement then f else g)).map
        (fun g => g.statement) = m.map (fun g => g.statement) := by
      rw [List.map_map]
      refine List.map_congr_left ?_
      intro g _
      by_cases hg : g.statement = f.statement
      · simp [Function.comp, hg]
      · have : (g.statement == f.statement) = false := by
          simp only [beq_eq_false_iff_ne, ne_eq]
          exact hg
        simp [Function.comp, this]
    rw [hkeys]
    exact hnd
  · have hany' : m.any (fun g => g.statement == f.statement) = false := by
      revert hany
      cases m.any (fun g => g.statement == f.statement) <;> simp
    rw [if_neg (by simp [hany'])]
    rw [List.map_append]
    rw [List.nodup_append]
    refine ⟨hnd, List.nodup_singleton _, ?_⟩
    intro x hx hfx
    simp only [List.map_cons, List.map_nil, List.mem_singleton] at hfx
    rcases List.mem_map.mp hx with ⟨g, hgmem, hgs⟩
    have := List.any_eq_false.mp hany' g hgmem
    simp only [beq_iff_eq] at this
    exact this (by rw [hgs, hfx])

/-- The keys of a `Map.set` fold stay nodup. -/
theorem foldl_factInsert_keys_nodup (l : List ContextFact) :
    ∀ (acc : List ContextFact), ((acc.map (fun g => g.statement)).Nodup) →
      (((l.foldl factInsert acc).map (fun g => g.statement)).Nodup) := by
  induction l with
  | nil => intro acc h; exact h
  | cons f l ih =>
    intro acc h
    exact ih (factInsert acc f) (factInsert_keys_nodup acc f h)

/-- The filter of a `Map.set` fold: the survivor for a statement is the
last folded fact with that statement, else whatever the accumulator held. -/
theorem foldl_factInsert_filter (l : List ContextFact) :
    ∀ (acc : List ContextFact), ((acc.map (fun g => g.statement)).Nodup) →
      ∀ (s : String),
        (l.foldl factInsert acc).filter (fun g => g.statement == s)
          = match l.reverse.find? (fun g => g.statement == s) with
            | some g => [g]
            | none => acc.filter (fun g => g.statement == s) := by
  induction l with
  | nil => intro acc _ s; rfl
  | cons f l ih =>
    intro acc hnd s
    rw [List.foldl_cons]
    rw [ih (factInsert acc f) (factInsert_keys_nodup acc f hnd) s]
    rw [List.reverse_cons, List.find?_append]
    cases hfind : l.reverse.find? (fun g => g.statement == s) with
    | some g => rfl
    | none =>
      simp only [Option.none_or]
      rw [factInsert_filter acc f s hnd]
      by_cases hs : f.statement = s
      · have hc : (f.statement == s) = true := by
          simp only [beq_iff_eq]
          exact hs
        rw [if_pos hs]
        simp [List.find?, hc]
      · have hc : (f.statement == s) = false := by
          simp only [beq_eq_false_iff_ne, ne_eq]
          exact hs
        rw [if_neg hs]
        simp [List.find?, hc]

/-- Folding `Map.set` over facts whose keys are fresh for the accumulator
and mutually distinct just appends them. -/
theorem foldl_factInsert_fresh (m : List ContextFact) :
    ∀ (acc : List ContextFact),
      (∀ g ∈ m, g.statement ∉ acc.map (fun x => x.statement)) →
      ((m.map (fun g => g.statement)).Nodup) →
      m.foldl factInsert acc = acc ++ m := by
  induction m with
  | nil => intro acc _ _; simp
  | cons f m ih =>
    intro acc hfresh hnd
    rw [List.map_cons, List.nodup_cons] at hnd
    have hanyf : acc.any (fun g => g.statement == f.statement) = false := by
      rw [List.any_eq_false]
      intro x hx
      simp only [beq_iff_eq]
      intro hh
      exact hfresh f (List.mem_cons_self f m) (hh ▸ List.mem_map_of_mem _ hx)
    have hins : factInsert acc f = acc ++ [f] := by
      unfold factInsert
      rw [if_neg (by simp [hanyf])]
    rw [List.foldl_cons, hins, ih (acc ++ [f]) ?fresh hnd.2]
    · rw [List.append_assoc, List.singleton_append]
    case fresh =>
      intro g hg
      rw [List.map_append]
      simp only [List.mem_append, not_or]
      refine ⟨hfresh g (List.mem_cons_of_mem f hg), ?_⟩
      simp only [List.map_cons, List.map_nil, List.mem_singleton]
      intro hh
      exact hnd.1 (hh ▸ List.mem_map_of_mem _ hg)

/-- Re-folding an already deduplicated fact list from the empty map is the
identity. -/
theorem foldl_factInsert_self (m : List ContextFact)
    (hnd : (m.map (fun g => g.statement)).Nodup) :
    m.foldl factInsert [] = m := by
  have h := foldl_factInsert_fresh m [] (by intro g _; simp) hnd
  simpa using h

/-- The statement keys of a merged fact list are nodup. -/
theorem mergeFacts_keys_nodup (e a : List ContextFact) :
    ((ContextManager.mergeFacts e a).map (fun g => g.statement)).Nodup :=
  foldl_factInsert_keys_nodup (e ++ a) [] (by simp)

/-- The survivors of `mergeFacts` for a statement: exactly the last
occurrence over existing-then-additions, or nothing. -/
theorem mergeFacts_filter (e a : List ContextFact) (s : String) :
    (ContextManager.mergeFacts e a).filter (fun g => g.statement == s)
      = match (e ++ a).reverse.find? (fun g => g.statement == s) with
        | some g => [g]
        | none => [] := by
  unfold ContextManager.mergeFacts
  rw [foldl_factInsert_filter (e ++ a) [] (by simp) s]
  cases hf : (e ++ a).reverse.find? (fun g => g.statement == s) <;> rfl

/-- Re-adding an identical fact changes nothing. -/
theorem mergeFacts_idem (e : List ContextFact) (f : ContextFact) :
    ContextManager.mergeFacts (ContextManager.mergeFacts e [f]) [f]
      = ContextManager.mergeFacts e [f] := by
  have hnd : ((ContextManager.mergeFacts e [f]).map (fun g => g.statement)).Nodup :=
    mergeFacts_keys_nodup e [f]
  have h1 : ContextManager.mergeFacts (ContextManager.mergeFacts e [f]) [f]
      = factInsert (ContextManager.mergeFacts e [f]) f := by
    show ((ContextManager.mergeFacts e [f]) ++ [f]).foldl factInsert []
      = factInsert (ContextManager.mergeFacts e [f]) f
    rw [List.foldl_append, foldl_factInsert_self _ hnd]
    rfl
  rw [h1]
  have hfil : (ContextManager.mergeFacts e [f]).filter
      (fun g => g.statement == f.statement) = [f] := by
    rw [mergeFacts_filter]
    have hfind : (e ++ [f]).reverse.find? (fun g => g.statement == f.statement)
        = some f := by
      rw [List.reverse_append]
      have : ([f].reverse : List ContextFact) = [f] := rfl
      rw [this, List.singleton_append, List.find?_cons_of_pos]
      simp
    rw [hfind]
  have hany : (ContextManager.mergeFacts e [f]).any
      (fun g => g.statement == f.statement) = true := by
    have hfmem : f ∈ (ContextManager.mergeFacts e [f]).filter
        (fun g => g.statement == f.statement) := by
      rw [hfil]
      exact List.mem_singleton_self f
    have hm := List.mem_filter.mp hfmem
    exact List.any_eq_true.mpr ⟨f, hm.1, hm.2⟩
  unfold factInsert
  rw [if_pos hany]
  have hcg : ∀ g ∈ ContextManager.mergeFacts e [f],
      (if g.statement == f.statement then f else g) = id g := by
    intro g hg
    by_cases hgs : g.statement = f.statement
    · have hmem : g ∈ (ContextManager.mergeFacts e [f]).filter
          (fun x => x.statement == f.statement) :=
        List.mem_filter.mpr ⟨hg, by simp [beq_iff_eq, hgs]⟩
      rw [hfil] at hmem
      simp only [List.mem_singleton] at hmem
      rw [if_pos (by simp [beq_iff_eq, hgs]), hmem]
      rfl
    · rw [if_neg (by simp only [beq_iff_eq]; exact hgs)]
      rfl
  rw [List.map_congr_left hcg, List.map_id]

/-- C9: fact merging in `update` is keyed by statement text with last
write wins — the merged list keeps exactly one fact per added statement,
namely the last addition with that statement (whether the duplicate came
within one update or from the existing facts of an earlier one), and
re-adding an identical fact is idempotent. -/
theorem c9_facts_last_write_wins :
    ∀ (m : ContextManager) (c : MCPContext) (adds : List ContextFact)
      (s : String) (g : ContextFact),
      ((m.update c { addFacts := some adds }).2.facts
        = ContextManager.mergeFacts c.facts adds) ∧
      (adds.reverse.find? (fun x => x.statement == s) = some g →
        (ContextManager.mergeFacts c.facts adds).filter
          (fun x => x.statement == s) = [g]) ∧
      (∀ f, ContextManager.mergeFacts (ContextManager.mergeFacts c.facts [f]) [f]
        = ContextManager.mergeFacts c.facts [f]) := by
  intro m c adds s g
  refine ⟨rfl, ?_, fun f => mergeFacts_idem c.facts f⟩
  intro hfind
  rw [mergeFacts_filter, List.reverse_append, List.find?_append, hfind]
  rfl

/-- Witness for C9 at a concrete input: adding the same statement twice in
one update keeps exactly the later fact. -/
theorem c9_witness :
    ((cmFixture.1.update cmFixture.2
        { addFacts := some [factFixtureA, factFixtureB] }).2.facts
      = ContextManager.mergeFacts cmFixture.2.facts [factFixtureA, factFixtureB]) ∧
    ((ContextManager.mergeFacts cmFixture.2.facts [factFixtureA, factFixtureB]).filter
        (fun x => x.statement == "sky is blue") = [factFixtureB]) := by
  have h := c9_facts_last_write_wins cmFixture.1 cmFixture.2
    [factFixtureA, factFixtureB] "sky is blue" factFixtureB
  exact ⟨h.1, h.2.1 (by decide)⟩

/-!
## C4: ungranted permissions deny execution
-/

/-- C4: invoking a registered, enabled tool with at least one declared
permission outside the granted set returns a failed result with the
PERMISSION_DENIED code whose message lists the missing permissions, and
the tool's execute function is not applied on that invocation. -/
theorem c4_permission_denied_no_execute :
    ∀ (reg : ToolRegistry) (request : ToolInvocationRequest) (elapsedMs : Nat)
      (entry : ToolRegistryEntry),
      strMapGet reg.tools request.toolId = some entry →
      entry.enabled = true →
      (∃ p ∈ entry.definition.permissions, p ∉ reg.config.grantedPermissions) →
      ((reg.invoke request elapsedMs).result.success = false ∧
        (∃ err, (reg.invoke request elapsedMs).result.error = some err ∧
          err.code = "PERMISSION_DENIED" ∧
          err.message = "Missing permissions: " ++ String.intercalate ", "
            ((ToolRegistry.checkPermissions reg.config
                entry.definition.permissions).missing.map ToolPermission.str)) ∧
        (reg.invoke request elapsedMs).executeCalled = false) := by
  intro reg request elapsedMs entry hget henabled hmissing
  obtain ⟨p, hpmem, hpng⟩ := hmissing
  have hpfilter : p ∈ (ToolRegistry.checkPermissions reg.config
      entry.definition.permissions).missing := by
    refine List.mem_filter.mpr ⟨hpmem, ?_⟩
    simp only [Bool.not_eq_true']
    rw [List.contains_eq_any_beq]
    simp only [List.any_eq_false, beq_iff_eq]
    intro x hx hax
    exact hpng (hax.symm ▸ hx)
  have hvalid : (ToolRegistry.checkPermissions reg.config
      entry.definition.permissions).valid = false := by
    have hne := List.ne_nil_of_mem hpfilter
    show (ToolRegistry.checkPermissions reg.config
      entry.definition.permissions).missing.isEmpty = false
    cases hmv : (ToolRegistry.checkPermissions reg.config
        entry.definition.permissions).missing with
    | nil => exact absurd hmv hne
    | cons a l => rfl
  unfold ToolRegistry.invoke
  rw [hget]
  simp only [henabled, hvalid, Bool.not_true, Bool.false_eq_true, if_false,
    not_false_eq_true, if_true]
  exact ⟨rfl, ⟨_, rfl, rfl, rfl⟩, rfl⟩

/-- Witness for C4 at a concrete registry and request. -/
theorem c4_witness :
    ((gatedRegistry.invoke gatedRequest 4).result.success = false) ∧
    (∃ err, (gatedRegistry.invoke gatedRequest 4).result.error = some err ∧
      err.code = "PERMISSION_DENIED" ∧
      err.message = "Missing permissions: FILE_WRITE") ∧
    ((gatedRegistry.invoke gatedRequest 4).executeCalled = false) := by
  have h := c4_permission_denied_no_execute gatedRegistry gatedRequest 4 gatedEntry
    rfl rfl ⟨.FILE_WRITE, by decide, by decide⟩
  obtain ⟨h1, ⟨err, he, hc, hm⟩, h3⟩ := h
  refine ⟨h1, ⟨err, he, hc, ?_⟩, h3⟩
  rw [hm]
  rfl

/-!
## C5: when the running metrics are updated
-/

/-- Counterexample to C5 as stated: on the TOOL_DISABLED path the metrics
are not touched — the invocation count stays 0 instead of incrementing to
1, and the last-invoked time stays null. -/
theorem c5_counterexample :
    ((echoDisabledRegistry.invoke echoRequest 5).result.error.map
        (fun e => e.code) = some "TOOL_DISABLED") ∧
    ((strMapGet echoDisabledRegistry.tools "test.echo").map
        (fun e => e.invocationCount) = some 0) ∧
    ((strMapGet (echoDisabledRegistry.invoke echoRequest 5).registry.tools
          "test.echo").map (fun e => e.invocationCount) = some 0) ∧
    ¬ ((strMapGet (echoDisabledRegistry.invoke echoRequest 5).registry.tools
          "test.echo").map (fun e => e.invocationCount) = some 1) := by
  refine ⟨rfl, rfl, rfl, by decide⟩

/-- C5 amended: the registry updates a tool's running metrics only on the
path where the tool's execute resolves within the timeout; there the
invocation count increments by one, the last-invoked time is refreshed and
the average duration becomes `(oldAvg * oldCount + thisDuration) /
newCount`.  On every other path — unknown tool, disabled, permission
denied, validation failure, timeout or thrown execution error — the
catalog (hence every metric) is unchanged. -/
theorem c5_metrics_on_resolve_only :
    ∀ (reg : ToolRegistry) (request : ToolInvocationRequest) (elapsedMs : Nat),
      ((strMapGet reg.tools request.toolId = none →
          (reg.invoke request elapsedMs).registry.tools = reg.tools) ∧
        (∀ entry, strMapGet reg.tools request.toolId = some entry →
          entry.enabled = false →
          (reg.invoke request elapsedMs).registry.tools = reg.tools) ∧
        (∀ entry, strMapGet reg.tools request.toolId = some entry →
          entry.enabled = true →
          (ToolRegistry.checkPermissions reg.config
            entry.definition.permissions).valid = false →
          (reg.invoke request elapsedMs).registry.tools = reg.tools) ∧
        (∀ entry, strMapGet reg.tools request.toolId = some entry →
          entry.enabled = true →
          (ToolRegistry.checkPermissions reg.config
            entry.definition.permissions).valid = true →
          request.skipValidation ≠ some true →
          (ToolRegistry.validateInput entry.definition request.input
            request.context).valid = false →
          (reg.invoke request elapsedMs).registry.tools = reg.tools) ∧
        (∀ entry, strMapGet reg.tools request.toolId = some entry →
          entry.enabled = true →
          (ToolRegistry.checkPermissions reg.config
            entry.definition.permissions).valid = true →
          (request.skipValidation = some true ∨
            (ToolRegistry.validateInput entry.definition request.input
              request.context).valid = true) →
          (∀ r, entry.definition.execute request.input
              (ToolRegistry.createExecutionContext reg.nextId request.context)
            ≠ ExecBehavior.resolves r) →
          (reg.invoke request elapsedMs).registry.tools = reg.tools) ∧
        (∀ entry result, strMapGet reg.tools request.toolId = some entry →
          entry.enabled = true →
          (ToolRegistry.checkPermissions reg.config
            entry.definition.permissions).valid = true →
          (request.skipValidation = some true ∨
            (ToolRegistry.validateInput entry.definition request.input
              request.context).valid = true) →
          entry.definition.execute request.input
              (ToolRegistry.createExecutionContext reg.nextId request.context)
            = ExecBehavior.resolves result →
          (reg.invoke request elapsedMs).registry.tools
            = strMapSet reg.tools entry.definition.id
                { entry with
                  invocationCount := entry.invocationCount + 1
                  lastInvokedAt := some reg.clock
                  averageDurationMs :=
                    (entry.averageDurationMs * (entry.invocationCount : Rat)
                        + (elapsedMs : Rat))
                      / ((entry.invocationCount : Rat) + 1) })) := by
  intro reg request elapsedMs
  refine ⟨?_, ?_, ?_, ?_, ?_, ?_⟩
  · intro hget
    unfold ToolRegistry.invoke
    rw [hget]
  · intro entry hget henabled
    unfold ToolRegistry.invoke
    simp only [hget]
    rw [if_pos (by simp [henabled])]
  · intro entry hget henabled hvalid
    unfold ToolRegistry.invoke
    simp only [hget]
    rw [if_neg (not_not_intro henabled), if_pos (by simp [hvalid])]
  · intro entry hget henabled hvalid hskip hval
    unfold ToolRegistry.invoke
    simp only [hget]
    rw [if_neg (not_not_intro henabled), if_neg (not_not_intro hvalid)]
    have hvcond : request.skipValidation ≠ some true ∧
        ¬ (if request.skipValidation ≠ some true then
            ToolRegistry.validateInput entry.definition request.input
              request.context
          else validationSuccess).valid = true := by
      refine ⟨hskip, ?_⟩
      rw [if_pos hskip, hval]
      simp
    rw [if_pos hvcond]
  · intro entry hget henabled hvalid hpass hnores
    unfold ToolRegistry.invoke
    simp only [hget]
    rw [if_neg (not_not_intro henabled), if_neg (not_not_intro hvalid)]
    have hcond : ¬ (request.skipValidation ≠ some true ∧
        ¬ (if request.skipValidation ≠ some true then
            ToolRegistry.validateInput entry.definition request.input
              request.context
          else validationSuccess).valid = true) := by
      rcases hpass with hp | hp
      · intro hc
        exact hc.1 hp
      · intro hc
        by_cases hsk : request.skipValidation = some true
        · exact hc.1 hsk
        · apply hc.2
          rw [if_pos hsk]
          exact hp
    rw [if_neg hcond]
    have hexec : ∃ msg, ToolRegistry.executeWithTimeout entry.definition
        request.input (ToolRegistry.createExecutionContext reg.nextId request.context)
        (request.timeoutMs.getD reg.config.defaultTimeoutMs) = Except.error msg := by
      unfold ToolRegistry.executeWithTimeout
      cases hb : entry.definition.execute request.input
          (ToolRegistry.createExecutionContext reg.nextId request.context) with
      | resolves r => exact absurd hb (hnores r)
      | throws msg => exact ⟨msg, rfl⟩
      | timesOut => exact ⟨_, rfl⟩
    obtain ⟨msg, hexec⟩ := hexec
    rw [hexec]
  · intro entry result hget henabled hvalid hpass hres
    unfold ToolRegistry.invoke
    simp only [hget]
    rw [if_neg (not_not_intro henabled), if_neg (not_not_intro hvalid)]
    have hcond : ¬ (request.skipValidation ≠ some true ∧
        ¬ (if request.skipValidation ≠ some true then
            ToolRegistry.validateInput entry.definition request.input
              request.context
          else validationSuccess).valid = true) := by
      rcases hpass with hp | hp
      · intro hc
        exact hc.1 hp
      · intro hc
        by_cases hsk : request.skipValidation = some true
        · exact hc.1 hsk
        · apply hc.2
          rw [if_pos hsk]
          exact hp
    rw [if_neg hcond]
    have hexec : ToolRegistry.executeWithTimeout entry.definition
        request.input (ToolRegistry.createExecutionContext reg.nextId request.context)
        (request.timeoutMs.getD reg.config.defaultTimeoutMs) = Except.ok result := by
      unfold ToolRegistry.executeWithTimeout
      rw [hres]
    rw [hexec]
    show ToolRegistry.updateMetrics reg.tools entry elapsedMs reg.clock
      = strMapSet reg.tools entry.definition.id _
    simp only [ToolRegistry.updateMetrics]
    have hcast : ((entry.invocationCount + 1 : Nat) : Rat)
        = (entry.invocationCount : Rat) + 1 := by
      push_cast
      ring
    rw [hcast]

/-- Witness for the amended C5: invoking the echo tool updates its metrics
to count 1, a non-null last-invoked time, and average `(0*0+5)/1 = 5`. -/
theorem c5_witness :
    ((echoRegistry.invoke echoRequest 5).registry.tools
      = strMapSet echoRegistry.tools "test.echo"
          { echoEntry with
            invocationCount := 1
            lastInvokedAt := some echoRegistry.clock
            averageDurationMs := (0 * (0 : Rat) + (5 : Rat)) / ((0 : Rat) + 1) }) ∧
    ((strMapGet (echoRegistry.invoke echoRequest 5).registry.tools
        "test.echo").map (fun e => e.invocationCount) = some 1) := by
  have h := (c5_metrics_on_resolve_only echoRegistry echoRequest 5).2.2.2.2.2
    echoEntry echoSuccessResult rfl rfl rfl (Or.inr rfl) rfl
  exact ⟨h, by rw [h]; rfl⟩

/-!
## C7: the step-limit scenario
-/

/-- Counterexample to C7 as stated: the scenario does terminate with
success = false and the lifecycle FAILED, but `LoopResult.reason` is the
generic "Task failed" produced by `run`; it contains neither "step" nor
"maximum", so it does not indicate step-limit exhaustion. -/
theorem c7_counterexample :
    (c7run.map (fun out => out.1.success) = some false) ∧
    (c7run.map (fun out => out.2.lifecycle.currentPhase) = some AgentPhase.FAILED) ∧
    (c7run.map (fun out => out.1.reason) = some "Task failed") ∧
    (c7run.map (fun out => strContainsSubstring out.1.reason "step") = some false) ∧
    (c7run.map (fun out => strContainsSubstring out.1.reason "maximum") = some false) := by
  refine ⟨rfl, rfl, rfl, rfl, rfl⟩

/-- C7 amended: with `maxSteps = 3` and an always-continue reflector the
run terminates with `LoopResult.success = false` and the lifecycle in
FAILED, but `LoopResult.reason` is the generic "Task failed"; the
step-limit exhaustion message "Exceeded maximum steps (3)" is recorded as
the reason of the FAILED phase entry that `fail` opens, not in the
returned `LoopResult.reason`. -/
theorem c7_step_limit_amended :
    (c7run.map (fun out => out.1.success) = some false) ∧
    (c7run.map (fun out => out.2.lifecycle.currentPhase) = some AgentPhase.FAILED) ∧
    (c7run.map (fun out => out.1.reason) = some "Task failed") ∧
    (c7run.map (fun out => out.2.lifecycle.currentPhaseEntry.map (fun e => e.reason))
      = some (some "Exceeded maximum steps (3)")) ∧
    (c7run.map (fun out => out.2.lifecycle.stepNumber) = some 3) := by
  refine ⟨rfl, rfl, rfl, rfl, rfl⟩

end Antigravity
